import Mathlib

/-!
# sdi4go: a shallow embedding of the binding and resolution engine

The Go package `sdi4go` (file `sdi4go.go`) keeps a map from names to
`objectRegister` records and resolves objects through the `reflect` package.
This file embeds

* the part of `reflect` the package relies on (`Kind`, type descriptors,
  `Elem`, `Implements`, `Set`),
* `objectRegister.checkOptions`, `objectRegister.create`,
* `Singleton`, `Constructor`, `New`, `Bind`, `Create`, `CreateAll`,
* `newInjector`, `injector.Inject` and `Inject`,

as executable Lean functions with explicit state passing.  A Go call has three
possible outcomes: it returns a nil error, it returns an error value, or it
panics; `Outcome` records which.
-/

set_option autoImplicit false

namespace Sdi4go

/-! ## The reflect model -/

/-- The kinds of `reflect.Kind`. -/
inductive Kind where
  | Invalid | Bool | Int | Int8 | Int16 | Int32 | Int64
  | Uint | Uint8 | Uint16 | Uint32 | Uint64 | Uintptr
  | Float32 | Float64 | Complex64 | Complex128
  | Array | Chan | Func | Interface | Map | Ptr | Slice
  | String | Struct | UnsafePointer
  deriving DecidableEq, Repr

/-- The predeclared Go types that have no element type and no method set. -/
inductive Basic where
  | bool | int | int8 | int16 | int32 | int64
  | uint | uint8 | uint16 | uint32 | uint64 | uintptr
  | float32 | float64 | complex64 | complex128
  | string | unsafePointer
  deriving DecidableEq, Repr

/-- The kind of a predeclared type. -/
def Basic.kind : Basic → Kind
  | .bool => .Bool | .int => .Int | .int8 => .Int8 | .int16 => .Int16
  | .int32 => .Int32 | .int64 => .Int64
  | .uint => .Uint | .uint8 => .Uint8 | .uint16 => .Uint16
  | .uint32 => .Uint32 | .uint64 => .Uint64 | .uintptr => .Uintptr
  | .float32 => .Float32 | .float64 => .Float64
  | .complex64 => .Complex64 | .complex128 => .Complex128
  | .string => .String | .unsafePointer => .UnsafePointer

mutual
/-- A type descriptor, the counterpart of `reflect.Type`.  A struct carries its
declared name, its fields, the methods declared with a value receiver and the
methods declared with a pointer receiver; an interface carries its name and
its methods.  Two descriptors are the same type exactly when they are equal. -/
inductive GoType where
  | basic (b : Basic)
  | array (len : Nat) (elem : GoType)
  | chan (elem : GoType)
  | func (ins : TypeList) (outs : TypeList)
  | iface (name : String) (methods : List String)
  | map (key : GoType) (elem : GoType)
  | ptr (elem : GoType)
  | slice (elem : GoType)
  | struct (name : String) (fields : FieldList) (methods : List String)
      (ptrMethods : List String)
  deriving DecidableEq, Repr
/-- A sequence of type descriptors (parameters or results of a function). -/
inductive TypeList where
  | nil
  | cons (t : GoType) (ts : TypeList)
  deriving DecidableEq, Repr
/-- The fields of a struct in declaration order: name, the value of the
`inject` key of the field tag if the tag has one, and the field type. -/
inductive FieldList where
  | nil
  | cons (name : String) (tag : Option String) (t : GoType) (rest : FieldList)
  deriving DecidableEq, Repr
end

/-- Number of entries of a type sequence. -/
def TypeList.length : TypeList → Nat
  | .nil => 0
  | .cons _ ts => ts.length + 1

/-- Entry `i` of a type sequence, if there is one. -/
def TypeList.get? : TypeList → Nat → Option GoType
  | .nil, _ => none
  | .cons t _, 0 => some t
  | .cons _ ts, i + 1 => ts.get? i

/-- The method `Type.Kind()`. -/
def GoType.Kind : GoType → Kind
  | .basic b => b.kind
  | .array _ _ => .Array
  | .chan _ => .Chan
  | .func _ _ => .Func
  | .iface _ _ => .Interface
  | .map _ _ => .Map
  | .ptr _ => .Ptr
  | .slice _ => .Slice
  | .struct _ _ _ _ => .Struct

/-- The method `Type.Elem()`: the element type of an array, chan, map, pointer or slice;
`none` stands for the panic reflect raises on every other kind. -/
def GoType.Elem : GoType → Option GoType
  | .array _ e => some e
  | .chan e => some e
  | .map _ e => some e
  | .ptr e => some e
  | .slice e => some e
  | _ => none

/-- The method `Type.NumIn()`; `none` is the panic on a type that is not a function. -/
def GoType.NumIn : GoType → Option Nat
  | .func ins _ => some ins.length
  | _ => none

/-- The method `Type.NumOut()`; `none` is the panic on a type that is not a function. -/
def GoType.NumOut : GoType → Option Nat
  | .func _ outs => some outs.length
  | _ => none

/-- The method `Type.Out(i)`; `none` is the panic on a non-function or a bad index. -/
def GoType.Out : GoType → Nat → Option GoType
  | .func _ outs, i => outs.get? i
  | _, _ => none

/-- The method set of a type: an interface has its own methods, a struct the
methods with a value receiver, a pointer to a struct both the value-receiver
and the pointer-receiver methods; every other type has none. -/
def GoType.methodSet : GoType → List String
  | .iface _ ms => ms
  | .struct _ _ ms _ => ms
  | .ptr (.struct _ _ ms pms) => ms ++ pms
  | _ => []

/-- The call `t.Implements(u)` for an interface type `u`: every method of `u` is in the
method set of `t`.  (reflect panics when `u` is not an interface; every call
in `sdi4go.go` is made on an interface type.) -/
def GoType.Implements (t u : GoType) : Bool :=
  match u with
  | .iface _ ms => ms.all (fun m => decide (m ∈ t.methodSet))
  | _ => false

/-- The call `V.AssignableTo(T)` as far as this package needs it: the types are
identical, or `T` is an interface that `V` implements. -/
def GoType.AssignableTo (v t : GoType) : Bool :=
  decide (v = t) || (decide (t.Kind = Kind.Interface) && v.Implements t)

/-- The interface `error`. -/
def errorInterface : GoType := .iface "error" ["Error() string"]

/-- The package-level error values of `sdi4go.go`. -/
inductive Sentinel where
  | ErrName | ErrNotFound | ErrSingletonConstructor | ErrFactoryType
  | ErrSingletonType | ErrInjectObject | ErrInjectField | ErrBindType
  | ErrSliceType | ErrObjectPtr
  deriving DecidableEq, Repr

/-- A Go value held in an `interface{}`.

* `nil` is the nil interface value;
* `ptr elem addr` is a pointer of type `*elem`, to the variable at address
  `addr`, or the nil pointer when `addr` is `none`;
* `slice elem items` is a slice of type `[]elem`;
* `func t id` is the function number `id`, of type `t`;
* `sentinel e` is one of the package-level error values, `wrapped e msg` the
  result of `errors.Wrap` on one of them;
* `zero t` is the zero value of type `t`;
* `other t payload` is any other value of type `t`. -/
inductive Value where
  | nil
  | ptr (elem : GoType) (addr : Option Nat)
  | slice (elem : GoType) (items : List Value)
  | func (t : GoType) (id : Nat)
  | sentinel (e : Sentinel)
  | wrapped (e : Sentinel) (msg : String)
  | zero (t : GoType)
  | other (t : GoType) (payload : Nat)

/-- The dynamic type of the error values made by `errors.New`. -/
def errorCodeType : GoType :=
  .ptr (.struct "errors.errorCode" .nil [] ["Error() string"])

/-- The call `reflect.TypeOf(v)`: `none` is the nil `reflect.Type` returned for the
nil interface value. -/
def TypeOf : Value → Option GoType
  | .nil => none
  | .ptr e _ => some (.ptr e)
  | .slice e _ => some (.slice e)
  | .func t _ => some t
  | .sentinel _ => some errorCodeType
  | .wrapped _ _ => some errorCodeType
  | .zero t => some t
  | .other t _ => some t

/-- The test `v == nil` on an `interface{}`. -/
def Value.isNil : Value → Bool
  | .nil => true
  | _ => false

/-- The dynamic type of a non-nil `reflect.Type` itself: reflect represents
every type by a `*reflect.rtype`. -/
def rtypePtr : GoType := .ptr (.struct "reflect.rtype" .nil [] [])

/-- The call `reflect.TypeOf(t)` for a `reflect.Type` value `t`: nil for the nil
`reflect.Type`, and `*reflect.rtype` for every other one. -/
def TypeOfType : Option GoType → Option GoType
  | none => none
  | some _ => some rtypePtr

/-! ## Outcomes, memory and the ghost log -/

/-- The way a Go call ends: it returns normally (with its non-error results),
it returns the error `e`, or it panics. -/
inductive Outcome (α : Type) where
  | ok (a : α)
  | err (e : Value)
  | panic

/-- Events recorded while the container runs: an invocation of the creation
step of the provider registered as `name`, and a call of function `fn`. -/
inductive Event where
  | create (name : String)
  | call (fn : Nat)
  deriving DecidableEq, Repr

/-- The memory of the program: the content of the variable at each address. -/
abbrev Heap := Nat → Value

/-- The state outside the registry: the memory, and the log of events. -/
structure World where
  heap : Heap
  log : List Event

/-- The behaviour of the function values: function `id`, called without
arguments on a memory, returns its results and the memory it leaves. -/
abbrev FuncEnv := Nat → Heap → List Value × Heap

/-! The error variables of the package, as values of type `error`. -/

def ErrName : Value := .sentinel .ErrName
def ErrNotFound : Value := .sentinel .ErrNotFound
def ErrSingletonConstructor : Value := .sentinel .ErrSingletonConstructor
def ErrFactoryType : Value := .sentinel .ErrFactoryType
def ErrSingletonType : Value := .sentinel .ErrSingletonType
def ErrInjectObject : Value := .sentinel .ErrInjectObject
def ErrInjectField : Value := .sentinel .ErrInjectField
def ErrBindType : Value := .sentinel .ErrBindType
def ErrSliceType : Value := .sentinel .ErrSliceType
def ErrObjectPtr : Value := .sentinel .ErrObjectPtr

/-- The statement `reflect.ValueOf(objectPtr).Elem().Set(reflect.ValueOf(val))`.
`Value.Elem` panics unless `objectPtr` is a pointer (an interface{} never
yields a Value of interface kind); on a nil pointer it yields the zero Value,
on which `Set` panics; `Set` panics when `val` is the nil interface (its
`reflect.ValueOf` is the zero Value) and when the type of `val` is not
assignable to the type of the variable.  `none` stands for the panic. -/
def setElem (objectPtr val : Value) (w : World) : Option World :=
  match objectPtr with
  | .ptr e (some a) =>
    match TypeOf val with
    | none => none
    | some vt =>
      if vt.AssignableTo e then
        some { w with heap := Function.update w.heap a val }
      else none
  | _ => none

/-- The call `Value.IsNil()` on a result whose static type is `static`: defined on the
kinds chan, func, interface, map, pointer, slice and unsafe pointer, a panic
(`none`) on every other kind. -/
def IsNil (static : GoType) (v : Value) : Option Bool :=
  match static.Kind with
  | .Interface => some v.isNil
  | .Ptr => some (match v with
      | .ptr _ none => true
      | .zero _ => true
      | _ => false)
  | .Chan | .Func | .Map | .Slice | .UnsafePointer => some (match v with
      | .zero _ => true
      | _ => false)
  | _ => none

/-! ## Providers -/

/-- The record `objectRegister`.  `factory` and `singleton` are `interface{}`
values, `objType` and `ptrType` are `reflect.Type` values (nil until
`checkOptions` sets them). -/
structure objectRegister where
  name : String
  factory : Value
  objType : Option GoType
  ptrType : Option GoType
  singleton : Value

/-- The method `checkOptions`.  It returns its outcome together with the
register, whose type fields it assigns on the way. -/
def checkOptions (register : objectRegister) : Outcome Unit × objectRegister :=
  if register.factory.isNil then
    if register.singleton.isNil then
      (.err ErrSingletonConstructor, register)
    else
      -- register.objType = reflect.TypeOf(register.singleton)
      let register := { register with objType := TypeOf register.singleton }
      match register.objType with
      | none => (.panic, register)
      | some objType =>
        if objType.Kind ≠ Kind.Ptr then
          (.err ErrSingletonType, register)
        else
          -- register.ptrType = register.objType
          let register := { register with ptrType := register.objType }
          -- register.objType = register.objType.Elem()
          match objType.Elem with
          | none => (.panic, register)
          | some elem =>
            let register := { register with objType := some elem }
            if elem.Kind ≠ Kind.Struct then
              (.err ErrSingletonType, register)
            else
              (.ok (), register)
  else
    match TypeOf register.factory with
    | none => (.panic, register)
    | some factoryType =>
      if factoryType.Kind ≠ Kind.Func then
        (.err ErrFactoryType, register)
      else
        match factoryType.NumIn, factoryType.NumOut with
        | some numIn, some numOut =>
          if numIn ≠ 0 then
            (.err ErrFactoryType, register)
          else if numOut ≠ 2 then
            (.err ErrFactoryType, register)
          else
            match factoryType.Out 0, factoryType.Out 1 with
            | some out0, some out1 =>
              if out0.Kind ≠ Kind.Ptr then
                (.err ErrFactoryType, register)
              else
                match out0.Elem with
                | none => (.panic, register)
                | some out0Elem =>
                  if out0Elem.Kind ≠ Kind.Struct then
                    (.err ErrFactoryType, register)
                  else if !out1.Implements errorInterface then
                    (.err ErrFactoryType, register)
                  else
                    -- register.ptrType = factoryType.Out(0).Elem()
                    let register := { register with ptrType := some out0Elem }
                    -- register.objType = register.ptrType.Elem()
                    match out0Elem.Elem with
                    | none => (.panic, register)
                    | some t => (.ok (), { register with objType := some t })
            | _, _ => (.panic, register)
        | _, _ => (.panic, register)

/-- The call `reflect.ValueOf(register.factory).Call(nil)` followed by the
inspection of its two results, as in the last lines of `create`.  reflect
panics when the value is not a function or takes arguments (variadic
functions are not modelled); indexing the results panics when there are
fewer than two; `IsNil` panics on a result of a kind that has no nil; the
assertion `.(error)` panics on a value that does not implement `error`. -/
def callFactory (fenv : FuncEnv) (factory : Value) (w : World) :
    Outcome Value × World :=
  match factory with
  | .func t id =>
    if t.Kind ≠ Kind.Func then (.panic, w)
    else if t.NumIn ≠ some 0 then (.panic, w)
    else
      let r := fenv id w.heap
      let w1 : World := { heap := r.2, log := w.log ++ [Event.call id] }
      match r.1, t.Out 1 with
      | res0 :: res1 :: _, some out1 =>
        match IsNil out1 res1 with
        | none => (.panic, w1)
        | some true => (.ok res0, w1)
        | some false =>
          match TypeOf res1 with
          | none => (.panic, w1)
          | some et =>
            if et.Implements errorInterface then (.err res1, w1)
            else (.panic, w1)
      | _, _ => (.panic, w1)
  | _ => (.panic, w)

/-- The method `create`.  Every invocation is recorded in the log. -/
def create (fenv : FuncEnv) (register : objectRegister) (w : World) :
    Outcome Value × World :=
  let w : World := { w with log := w.log ++ [Event.create register.name] }
  if !register.singleton.isNil then
    (.ok register.singleton, w)
  else if register.factory.isNil then
    (.err ErrSingletonConstructor, w)
  else
    callFactory fenv register.factory w

/-- The type `Option` of the source: a function that configures a register,
or the nil function. -/
abbrev BindOption := Option (objectRegister → objectRegister)

/-- The option `Singleton(object)`. -/
def Singleton (object : Value) : BindOption :=
  some (fun register => { register with singleton := object })

/-- The option `Constructor(f)`. -/
def Constructor (f : Value) : BindOption :=
  some (fun register => { register with factory := f })

/-! ## The container -/

/-- The struct `sdi4goImpl`: the map `registers`, kept as its list of entries
with distinct keys. -/
structure sdi4goImpl where
  registers : List (String × objectRegister)

/-- The function `New`. -/
def New : sdi4goImpl := { registers := [] }

/-- The map assignment `m[name] = register`. -/
def mapSet (m : List (String × objectRegister)) (name : String)
    (register : objectRegister) : List (String × objectRegister) :=
  match m.lookup name with
  | some _ => m.map (fun e => if e.1 = name then (name, register) else e)
  | none => m ++ [(name, register)]

/-- The loop `for _, opt := range options { opt(register) }`; calling the nil
function panics (`none`). -/
def applyOptions : List BindOption → objectRegister → Option objectRegister
  | [], register => some register
  | none :: _, _ => none
  | some opt :: rest, register => applyOptions rest (opt register)

/-- The method `Bind`: its outcome and the container after the call. -/
def Bind (impl : sdi4goImpl) (name : String) (options : List BindOption) :
    Outcome Unit × sdi4goImpl :=
  match impl.registers.lookup name with
  | some _ => (.err ErrName, impl)
  | none =>
    let register : objectRegister :=
      { name := name, factory := .nil, objType := none, ptrType := none,
        singleton := .nil }
    match applyOptions options register with
    | none => (.panic, impl)
    | some register =>
      match checkOptions register with
      | (.ok _, register) =>
        (.ok (), { impl with registers := mapSet impl.registers name register })
      | (.err e, _) => (.err e, impl)
      | (.panic, _) => (.panic, impl)

/-- The method `Create`: its outcome and the world after the call.  The
container itself is only read. -/
def Create (fenv : FuncEnv) (impl : sdi4goImpl) (name : String)
    (objectPtr : Value) (w : World) : Outcome Unit × World :=
  -- objType := reflect.TypeOf(objectPtr)
  let objType := TypeOf objectPtr
  -- reflect.TypeOf(objType).Kind() != reflect.Ptr
  match TypeOfType objType, objType with
  | some metaType, some objType =>
    if metaType.Kind ≠ Kind.Ptr then
      (.err ErrObjectPtr, w)
    else
      -- objType = objType.Elem()
      match objType.Elem with
      | none => (.panic, w)
      | some objType =>
        match impl.registers.lookup name with
        | some register =>
          let check : Outcome Unit :=
            if objType.Kind = Kind.Interface then
              match register.ptrType with
              | none => .panic
              | some ptrType =>
                if !ptrType.Implements objType then .err ErrBindType else .ok ()
            else if objType.Kind = Kind.Ptr
                && (objType.Elem.map GoType.Kind) = some Kind.Struct then
              if register.objType ≠ objType.Elem then .err ErrBindType
              else .ok ()
            else .err ErrObjectPtr
          match check with
          | .err e => (.err e, w)
          | .panic => (.panic, w)
          | .ok _ =>
            match create fenv register w with
            | (.err e, w1) => (.err e, w1)
            | (.panic, w1) => (.panic, w1)
            | (.ok val, w1) =>
              match setElem objectPtr val w1 with
              | none => (.panic, w1)
              | some w2 => (.ok (), w2)
        | none => (.err ErrNotFound, w)
  | _, _ => (.panic, w)

/-- One of the two loops `for _, register := range impl.registers` of
`CreateAll`, over the registers in the order `iter` in which the map yields
them: `test` is the condition of the `if` in the loop body (`none` when
evaluating it panics), and the values created are appended to `storaged`. -/
def collect (fenv : FuncEnv) (test : objectRegister → Option Bool) :
    List objectRegister → List Value → World → Outcome (List Value) × World
  | [], storaged, w => (.ok storaged, w)
  | register :: rest, storaged, w =>
    match test register with
    | none => (.panic, w)
    | some false => collect fenv test rest storaged w
    | some true =>
      match create fenv register w with
      | (.err e, w1) => (.err e, w1)
      | (.panic, w1) => (.panic, w1)
      | (.ok val, w1) => collect fenv test rest (storaged ++ [val]) w1

/-- The condition of the loop over an interface element type.  The arguments
of the `debug` calls are evaluated whether or not `Debug` is set:
`register.objType.String()` panics on a nil `objType`, and
`register.ptrType.Implements` on a nil `ptrType`. -/
def ifaceTest (elemType : GoType) (register : objectRegister) : Option Bool :=
  match register.objType, register.ptrType with
  | some _, some ptrType => some (ptrType.Implements elemType)
  | _, _ => none

/-- The condition of the loop over a struct-pointer element type:
`register.objType == elemType.Elem()`. -/
def structTest (elemType : GoType) (register : objectRegister) : Option Bool :=
  some (decide (register.objType = elemType.Elem))

/-- The tail of `CreateAll`: when `storaged` is not empty, a slice of its
length is made, each value is stored by `Index(i).Set` (a panic on the nil
interface or on a value not assignable to the element type) and the slice is
assigned through the destination pointer. -/
def storeSlice (elemType : GoType) (storaged : List Value) (objectSlice : Value)
    (w : World) : Outcome Unit × World :=
  if storaged.length > 0 then
    if storaged.all (fun v =>
        match TypeOf v with
        | none => false
        | some vt => vt.AssignableTo elemType) then
      match setElem objectSlice (.slice elemType storaged) w with
      | none => (.panic, w)
      | some w1 => (.ok (), w1)
    else (.panic, w)
  else (.ok (), w)

/-- The method `CreateAll`: its outcome and the world after the call.  Go
leaves the order of a map iteration open; `iter` is the order in which the
registers are visited. -/
def CreateAll (fenv : FuncEnv) (iter : List objectRegister)
    (objectSlice : Value) (w : World) : Outcome Unit × World :=
  match TypeOf objectSlice with
  | none => (.panic, w)
  | some sliceType =>
    if sliceType.Kind ≠ Kind.Ptr then
      (.err ErrSliceType, w)
    else
      match sliceType.Elem with
      | none => (.panic, w)
      | some sliceType =>
        if sliceType.Kind ≠ Kind.Slice then
          (.err ErrSliceType, w)
        else
          match sliceType.Elem with
          | none => (.panic, w)
          | some elemType =>
            let collected : Outcome (List Value) × World :=
              if elemType.Kind = Kind.Interface then
                collect fenv (ifaceTest elemType) iter [] w
              else if elemType.Kind = Kind.Ptr
                  && (elemType.Elem.map GoType.Kind) = some Kind.Struct then
                collect fenv (structTest elemType) iter [] w
              else (.err ErrSliceType, w)
            match collected with
            | (.err e, w1) => (.err e, w1)
            | (.panic, w1) => (.panic, w1)
            | (.ok storaged, w1) => storeSlice elemType storaged objectSlice w1

/-- The orders in which a map iteration may visit the registers of a
container: the permutations of its entries. -/
def IterationOrder (impl : sdi4goImpl) (iter : List objectRegister) : Prop :=
  iter.Perm (impl.registers.map Prod.snd)

/-- The containers a program can hold: `New()`, and what any call of `Bind`
leaves behind (whatever its outcome). -/
inductive Reachable : sdi4goImpl → Prop where
  | new : Reachable New
  | bind (impl : sdi4goImpl) (name : String) (options : List BindOption) :
      Reachable impl → Reachable (Bind impl name options).2

/-- The containers in which `name` was bound with the option list `options`:
the container a successful `Bind(name, options...)` leaves, and every
container obtained from such a one by further calls of `Bind`. -/
inductive BoundWith (name : String) (options : List BindOption) :
    sdi4goImpl → Prop where
  | here (impl : sdi4goImpl) : (Bind impl name options).1 = .ok () →
      BoundWith name options (Bind impl name options).2
  | later (impl : sdi4goImpl) (other : String) (more : List BindOption) :
      BoundWith name options impl →
      BoundWith name options (Bind impl other more).2

/-- What a register looks like once `checkOptions` has accepted it: no
factory, a singleton, and the two types derived from the singleton. -/
structure Accepted (r : objectRegister) : Prop where
  factory_nil : r.factory.isNil = true
  singleton_set : r.singleton.isNil = false
  types : ∃ T : GoType, T.Kind = Kind.Struct ∧ r.objType = some T ∧
    r.ptrType = some (.ptr T) ∧ TypeOf r.singleton = some (.ptr T)

/-- The claim's notion of a provider matching the element type `E` of a
`CreateAll` destination: its pointer type implements `E` when `E` is an
interface, its concrete type is `S` when `E` is `*S`. -/
def providerMatches (E : GoType) (r : objectRegister) : Bool :=
  match E with
  | .iface _ _ =>
    match r.ptrType with
    | some ptrType => ptrType.Implements E
    | none => false
  | .ptr S => decide (r.objType = some S)
  | _ => false

/-! ## The types and objects of the test file -/

/-- The struct `testA` of the tests, with its method `SayHello` on the
pointer receiver. -/
def testA : GoType :=
  .struct "testA" (.cons "V" none (.basic .int) .nil) [] ["SayHello()"]

/-- The interface `Hello` of the tests. -/
def Hello : GoType := .iface "Hello" ["SayHello()"]

/-- The struct `Property` of the tests. -/
def Property : GoType :=
  .struct "Property"
    (.cons "name" none (.basic .string) (.cons "value" none (.basic .string) .nil))
    [] []

/-- The struct `testB` of the tests. -/
def testB : GoType :=
  .struct "testB"
    (.cons "A" (some "a1") (.ptr testA) (.cons "A1" (some "a2") (.ptr testA) .nil))
    [] []

/-- The pointer `a11` of `TestInjectorGet`, to a `testA` at address 11. -/
def a11 : Value := .ptr testA (some 11)

/-- The pointer `a22` of `TestInjectorGet`, to a `testA` at address 22. -/
def a22 : Value := .ptr testA (some 22)

/-- The pointer `p` of `TestInjectorProperty`, to a `Property` at address 5. -/
def propertyPtr : Value := .ptr Property (some 5)

/-- A world in which every variable holds the nil interface and nothing has
happened yet. -/
def emptyWorld : World := { heap := fun _ => Value.nil, log := [] }

/-- An environment in which every function returns no result. -/
def noFuncs : FuncEnv := fun _ h => ([], h)

/-- The container of `TestInjectorGet` after its two `Bind` calls. -/
def testContainer : sdi4goImpl :=
  (Bind (Bind New "a1" [Singleton a11]).2 "a2" [Singleton a22]).2

/-- The container of `TestInjectorProperty` after its `Bind` call. -/
def propertyContainer : sdi4goImpl := (Bind New "p" [Singleton propertyPtr]).2

/-! ## Field injection -/

/-- The sentinel an error value stands for: the value itself when it is one of
the package-level errors, the wrapped one when it was made by `errors.Wrap`. -/
def Value.cause : Value → Option Sentinel
  | .sentinel e => some e
  | .wrapped e _ => some e
  | _ => none

/-- The first byte of the UTF-8 encoding of a character. -/
def leadByte (c : Char) : Nat :=
  let v := c.val.toNat
  if v < 0x80 then v
  else if v < 0x800 then 0xC0 + v / 0x40
  else if v < 0x10000 then 0xE0 + v / 0x1000
  else 0xF0 + v / 0x40000

/-- The one-byte string `name[:1]`, as its byte; `none` is the panic of the
slice expression on the empty string. -/
def firstByte (name : String) : Option Nat :=
  match name.data with
  | [] => none
  | c :: _ => some (leadByte c)

/-- The bytes of `strings.ToTitle(s)` for a string `s` of the single byte `b`.
An ASCII byte is one character: a lower-case letter is mapped to its
upper-case letter and every other character to itself.  A byte from `0x80`
on is not valid UTF-8 by itself: `strings.Map` reads it as `utf8.RuneError`
and writes the encoding of U+FFFD in its place. -/
def ToTitle (b : Nat) : List Nat :=
  if b < 0x80 then
    if 0x61 ≤ b ∧ b ≤ 0x7A then [b - 0x20] else [b]
  else [0xEF, 0xBF, 0xBD]

/-- Whether a field name is exported: its first character is an upper-case
letter.  For ASCII that is `A` to `Z`; beyond ASCII the Unicode table of
upper-case letters is the parameter `upperTable`. -/
def isExported (upperTable : Char → Bool) (name : String) : Bool :=
  match name.data with
  | [] => false
  | c :: _ => if c.val.toNat < 0x80 then c.isUpper else upperTable c

/-- The fields of a struct type (none for every other type). -/
def GoType.fields : GoType → FieldList
  | .struct _ fs _ _ => fs
  | _ => .nil

/-- The address of the variable that is field number `i` of the struct at
address `a`. -/
def fieldAddr (a i : Nat) : Nat := a + 1 + i

/-- The record `injectField`: the tag, and the `reflect.Value` of the field,
which is its type, the address of its variable, and the read-only flag that
reflect sets on a value obtained through a field that is not exported. -/
structure injectField where
  tag : String
  fieldType : GoType
  addr : Nat
  readOnly : Bool

/-- The record `injector`. -/
structure injector where
  fields : List injectField

/-- The loop of `newInjector` over the fields of the struct, from field
number `i` on; `base` is the address of the struct that `object` points to
(`none` for a nil pointer, on whose zero `reflect.Value` the call
`objValue.Field(i)` panics) and `acc` the fields appended so far. -/
def scanFields (upperTable : Char → Bool) (base : Option Nat) :
    FieldList → Nat → List injectField → Outcome (List injectField)
  | .nil, _, acc => .ok acc
  | .cons name tag fieldType rest, i, acc =>
    match tag with
    | none => scanFields upperTable base rest (i + 1) acc
    | some tagStr =>
      if fieldType.Kind ≠ Kind.Interface &&
          (fieldType.Kind = Kind.Ptr &&
            (fieldType.Elem.map GoType.Kind) ≠ some Kind.Struct) then
        .err ErrInjectField
      else
        match firstByte name with
        | none => .panic
        | some b =>
          if ToTitle b ≠ [b] then
            .err ErrInjectField
          else
            match base with
            | none => .panic
            | some a =>
              scanFields upperTable base rest (i + 1)
                (acc ++ [{ tag := tagStr, fieldType := fieldType,
                           addr := fieldAddr a i,
                           readOnly := !isExported upperTable name }])

/-- The function `newInjector`. -/
def newInjector (upperTable : Char → Bool) (object : Value) : Outcome injector :=
  match TypeOf object with
  | none => .panic
  | some objType =>
    if objType.Kind ≠ Kind.Ptr then
      .err ErrInjectObject
    else
      match objType.Elem with
      | none => .panic
      | some objType =>
        if objType.Kind ≠ Kind.Struct then
          .err ErrInjectObject
        else
          -- objValue := reflect.ValueOf(object).Elem()
          let base : Option Nat :=
            match object with
            | .ptr _ (some a) => some a
            | _ => none
          match scanFields upperTable base objType.fields 0 [] with
          | .ok fields => .ok { fields := fields }
          | .err e => .err e
          | .panic => .panic

/-- The loop of the method `injector.Inject`.  The message of `errors.Wrap`
is kept as its format string.  `Type().Elem()` panics on a field type without
element type, and `field.field.Addr().Interface()` panics on a read-only
value. -/
def injectLoop (fenv : FuncEnv) (sdi4go : sdi4goImpl) :
    List injectField → World → Outcome Unit × World
  | [], w => (.ok (), w)
  | field :: rest, w =>
    match sdi4go.registers.lookup field.tag with
    | none => (.err (.wrapped .ErrNotFound "can't find service %s"), w)
    | some register =>
      let check : Outcome Unit :=
        if field.fieldType.Kind = Kind.Interface then
          match register.ptrType with
          | none => .panic
          | some ptrType =>
            if !ptrType.Implements field.fieldType then
              .err (.wrapped .ErrBindType "service %s can't cast %v to %v")
            else .ok ()
        else
          match field.fieldType.Elem with
          | none => .panic
          | some elem =>
            if some elem ≠ register.objType then
              .err (.wrapped .ErrBindType "service %s type error")
            else .ok ()
      match check with
      | .err e => (.err e, w)
      | .panic => (.panic, w)
      | .ok _ =>
        if field.readOnly then (.panic, w)
        else
          match Create fenv sdi4go field.tag
              (.ptr field.fieldType (some field.addr)) w with
          | (.err e, w1) => (.err e, w1)
          | (.panic, w1) => (.panic, w1)
          | (.ok _, w1) => injectLoop fenv sdi4go rest w1

/-- The method `injector.Inject`. -/
def injector.Inject (impl : injector) (fenv : FuncEnv) (sdi4go : sdi4goImpl)
    (w : World) : Outcome Unit × World :=
  injectLoop fenv sdi4go impl.fields w

/-- The method `sdi4goImpl.Inject`: its outcome and the world after the call.
The container is only read. -/
def Inject (upperTable : Char → Bool) (fenv : FuncEnv) (impl : sdi4goImpl)
    (object : Value) (w : World) : Outcome Unit × World :=
  match newInjector upperTable object with
  | .err e => (.err e, w)
  | .panic => (.panic, w)
  | .ok injector => injector.Inject fenv impl w

/-! ## Notions used in the statements -/

/-- The factory types the claims call valid: a function without parameters
and with exactly two results, the first a pointer to a struct and the second
implementing `error`. -/
def validFactoryType : GoType → Bool
  | .func .nil (.cons (.ptr T) (.cons E .nil)) =>
    decide (T.Kind = Kind.Struct) && E.Implements errorInterface
  | _ => false

/-- The options a caller of the package can pass: the nil function, and what
`Singleton` and `Constructor` return (the type `objectRegister` is not
exported, so no other function of type `Option` can be written outside the
package). -/
def CallerOption (o : BindOption) : Prop :=
  o = none ∨ ∃ v, o = Singleton v ∨ o = Constructor v

/-- Well-formedness of the entry stored under the key `k`: its name is `k`,
exactly one of singleton and factory is set, its `objType` is a struct type
and its `ptrType` is the pointer type to it. -/
def EntryWellFormed (k : String) (r : objectRegister) : Prop :=
  r.name = k ∧
  ((r.singleton.isNil = false ∧ r.factory.isNil = true) ∨
    (r.singleton.isNil = true ∧ r.factory.isNil = false)) ∧
  ∃ T : GoType, r.objType = some T ∧ T.Kind = Kind.Struct ∧
    r.ptrType = some (.ptr T)

/-- One call of a method of the container, from a state (the container and
the world) to the state it leaves.  `Bind` is called with options a caller can
pass; `Create`, `CreateAll` and `Inject` only read the container. -/
inductive Step (upperTable : Char → Bool) (fenv : FuncEnv) :
    sdi4goImpl × World → sdi4goImpl × World → Prop where
  | bind (impl : sdi4goImpl) (w : World) (name : String)
      (options : List BindOption) :
      (∀ o ∈ options, CallerOption o) →
      Step upperTable fenv (impl, w) ((Bind impl name options).2, w)
  | create (impl : sdi4goImpl) (w : World) (name : String) (objectPtr : Value) :
      Step upperTable fenv (impl, w)
        (impl, (Create fenv impl name objectPtr w).2)
  | createAll (impl : sdi4goImpl) (w : World) (iter : List objectRegister)
      (objectSlice : Value) :
      IterationOrder impl iter →
      Step upperTable fenv (impl, w)
        (impl, (CreateAll fenv iter objectSlice w).2)
  | inject (impl : sdi4goImpl) (w : World) (object : Value) :
      Step upperTable fenv (impl, w)
        (impl, (Inject upperTable fenv impl object w).2)

/-- The states reachable from `New()` by any sequence of calls of `Bind`,
`Create`, `CreateAll` and `Inject`. -/
inductive Run (upperTable : Char → Bool) (fenv : FuncEnv) :
    sdi4goImpl × World → Prop where
  | start (w : World) : Run upperTable fenv (New, w)
  | step (s t : sdi4goImpl × World) :
      Run upperTable fenv s → Step upperTable fenv s t → Run upperTable fenv t

/-- The object a container resolves a tag to: the singleton of the register
bound under that name. -/
def resolvedObject (impl : sdi4goImpl) (tag : String) : Value :=
  match impl.registers.lookup tag with
  | some r => r.singleton
  | none => .nil

/-- The world a successful resolution of the field `f` leaves: the object is
stored in the variable of the field and the creation step is logged. -/
def resolveField (impl : sdi4goImpl) (w : World) (f : injectField) : World :=
  { heap := Function.update w.heap f.addr (resolvedObject impl f.tag),
    log := w.log ++
      [Event.create (match impl.registers.lookup f.tag with
        | some r => r.name
        | none => f.tag)] }

/-- The tagged fields the claims call resolvable: the field is exported, its
tag is the name of a registered provider, and that provider matches the type
of the field (an interface its pointer type implements, or the pointer type
to its struct type). -/
def Resolvable (impl : sdi4goImpl) (f : injectField) : Prop :=
  f.readOnly = false ∧
  ∃ r, impl.registers.lookup f.tag = some r ∧ providerMatches f.fieldType r = true

/-! ## Injection targets used in the examples -/

/-- A table of upper-case letters beyond ASCII that has the capital letters of
the Latin-1 block (U+00C0 to U+00DE without the multiplication sign). -/
def latinUpper (c : Char) : Bool :=
  decide (0xC0 ≤ c.val.toNat ∧ c.val.toNat ≤ 0xDE ∧ c.val.toNat ≠ 0xD7)

/-- The target `b` of `TestInjectorGet`: a pointer to a `testB` at address
200, whose fields `A` and `A1` are the variables 201 and 202. -/
def testBTarget : Value := .ptr testB (some 200)

/-- A struct with an interface field tagged `a1` and a struct-pointer field
tagged `a2`, and an untagged field between them. -/
def testC : GoType :=
  .struct "testC"
    (.cons "H" (some "a1") Hello
      (.cons "N" none (.basic .int)
        (.cons "A" (some "a2") (.ptr testA) .nil)))
    [] []

/-- A struct whose tagged field is an `int`. -/
def withInt : GoType :=
  .struct "withInt" (.cons "N" (some "a1") (.basic .int) .nil) [] []

/-- A struct whose tagged field is a slice of `testA`. -/
def withSlice : GoType :=
  .struct "withSlice" (.cons "S" (some "a1") (.slice testA) .nil) [] []

/-- A struct whose tagged field is a `testA` struct value. -/
def withStruct : GoType :=
  .struct "withStruct" (.cons "V" (some "a1") testA .nil) [] []

/-- A struct whose tagged field is a pointer to an `int`. -/
def withIntPtr : GoType :=
  .struct "withIntPtr" (.cons "P" (some "a1") (.ptr (.basic .int)) .nil) [] []

/-- A struct whose tagged field has a name that begins with an underscore. -/
def withUnderscore : GoType :=
  .struct "withUnderscore" (.cons "_a" (some "a1") (.ptr testA) .nil) [] []

/-- A struct whose tagged field has a name that begins with a lower-case
letter. -/
def withLower : GoType :=
  .struct "withLower" (.cons "a" (some "a1") (.ptr testA) .nil) [] []

/-- A struct whose tagged field has a name that begins with the upper-case
letter U+00C9. -/
def withAccent : GoType :=
  .struct "withAccent" (.cons "Éa" (some "a1") (.ptr testA) .nil) [] []

/-- A struct with three tagged fields, the second of which names a provider
that `TestInjectorGet` does not bind. -/
def testD : GoType :=
  .struct "testD"
    (.cons "A" (some "a1") (.ptr testA)
      (.cons "B" (some "missing") (.ptr testA)
        (.cons "C" (some "a2") (.ptr testA) .nil)))
    [] []

/-- A factory of type `func() (*testA, error)`, function number 7. -/
def testFactory : Value :=
  .func (.func .nil (.cons (.ptr testA) (.cons errorInterface .nil))) 7

/-- An environment in which function 7 returns the object `a22` and a nil
error, function 8 returns a nil pointer and the error `ErrNotFound`, and every
other function returns nothing. -/
def testFuncs : FuncEnv := fun id h =>
  if id = 7 then ([a22, Value.nil], h)
  else if id = 8 then ([Value.ptr testA none, ErrNotFound], h)
  else ([], h)

/-! ## Facts about the reflect model -/

@[simp] theorem kind_ptr (e : GoType) : (GoType.ptr e).Kind = Kind.Ptr := rfl

@[simp] theorem elem_ptr (e : GoType) : (GoType.ptr e).Elem = some e := rfl

@[simp] theorem kind_slice (e : GoType) : (GoType.slice e).Kind = Kind.Slice := rfl

@[simp] theorem elem_slice (e : GoType) : (GoType.slice e).Elem = some e := rfl

@[simp] theorem kind_func (ins outs : TypeList) :
    (GoType.func ins outs).Kind = Kind.Func := rfl

@[simp] theorem kind_iface (n : String) (ms : List String) :
    (GoType.iface n ms).Kind = Kind.Interface := rfl

theorem kind_ptr_iff (t : GoType) : t.Kind = Kind.Ptr ↔ ∃ e, t = .ptr e := by
  cases t <;> simp [GoType.Kind]
  case basic b => cases b <;> simp [Basic.kind]

theorem kind_slice_iff (t : GoType) : t.Kind = Kind.Slice ↔ ∃ e, t = .slice e := by
  cases t <;> simp [GoType.Kind]
  case basic b => cases b <;> simp [Basic.kind]

theorem kind_iface_iff (t : GoType) :
    t.Kind = Kind.Interface ↔ ∃ n ms, t = .iface n ms := by
  cases t <;> simp [GoType.Kind]
  case basic b => cases b <;> simp [Basic.kind]

theorem kind_struct_elem_none (t : GoType) (h : t.Kind = Kind.Struct) :
    t.Elem = none := by
  cases t <;> simp_all [GoType.Kind, GoType.Elem]

/-- The guard `reflect.TypeOf(objType).Kind() != reflect.Ptr` of `Create`
inspects the descriptor object, which is always a pointer. -/
theorem typeOfType_kind (t : Option GoType) (m : GoType)
    (h : TypeOfType t = some m) : m.Kind = Kind.Ptr := by
  cases t with
  | none => simp [TypeOfType] at h
  | some t =>
    simp only [TypeOfType, Option.some.injEq] at h
    subst h
    rfl

/-! ## Facts about `checkOptions` and `Bind` -/

/-- The method `checkOptions` accepts a register only on the singleton path, and then it
sets the two types from the type of the singleton. -/
theorem checkOptions_ok (r r1 : objectRegister) (u : Unit)
    (h : checkOptions r = (.ok u, r1)) :
    r.factory.isNil = true ∧ r.singleton.isNil = false ∧
    ∃ T : GoType, T.Kind = Kind.Struct ∧ TypeOf r.singleton = some (.ptr T) ∧
      r1 = { r with objType := some T, ptrType := some (.ptr T) } := by
  unfold checkOptions at h
  split at h
  · rename_i hf
    split at h
    · simp at h
    · rename_i hs
      simp only at h
      split at h
      · simp at h
      · rename_i objType hty
        split at h
        · simp at h
        · rename_i hk
          split at h
          · simp at h
          · rename_i elem he
            split at h
            · simp at h
            · rename_i hke
              simp only [ne_eq, Decidable.not_not] at hk hke
              obtain ⟨e, rfl⟩ := (kind_ptr_iff objType).1 hk
              simp only [GoType.Elem, Option.some.injEq] at he
              subst he
              refine ⟨hf, by simpa using hs, e, hke, hty, ?_⟩
              simp only [Prod.mk.injEq, true_and] at h
              rw [← h]
              simp [hty]
  · exfalso
    split at h
    · simp at h
    · split at h
      · simp at h
      · split at h
        · split at h
          · simp at h
          · split at h
            · simp at h
            · split at h
              · split at h
                · simp at h
                · split at h
                  · simp at h
                  · split at h
                    · simp at h
                    · split at h
                      · simp at h
                      · rename_i hk _
                        simp only [ne_eq, Decidable.not_not] at hk
                        rw [kind_struct_elem_none _ hk] at h
                        simp at h
              · simp at h
        · simp at h

/-- The errors `checkOptions` can return. -/
theorem checkOptions_err (r r1 : objectRegister) (e : Value)
    (h : checkOptions r = (.err e, r1)) :
    e = ErrSingletonConstructor ∨ e = ErrSingletonType ∨ e = ErrFactoryType := by
  unfold checkOptions at h
  repeat' (first | split at h | (simp only at h; split at h))
  all_goals simp_all

theorem checkOptions_accepted (r r1 : objectRegister) (u : Unit)
    (h : checkOptions r = (.ok u, r1)) : Accepted r1 ∧ r1.name = r.name ∧
      r1.singleton = r.singleton := by
  obtain ⟨hf, hs, T, hT, hty, rfl⟩ := checkOptions_ok r r1 u h
  exact ⟨⟨hf, hs, T, hT, rfl, rfl, hty⟩, rfl, rfl⟩

theorem lookup_append_new (m : List (String × objectRegister)) (name : String)
    (r : objectRegister) (key : String) :
    (m ++ [(name, r)]).lookup key =
      match m.lookup key with
      | some x => some x
      | none => if key = name then some r else none := by
  induction m with
  | nil =>
    by_cases hk : key = name
    · subst hk; simp [List.lookup]
    · have : (key == name) = false := by simpa using hk
      simp [List.lookup, this, hk]
  | cons e rest ih =>
    obtain ⟨k, v⟩ := e
    by_cases hk : key = k
    · subst hk; simp [List.lookup]
    · have : (key == k) = false := by simpa using hk
      simp only [List.cons_append, List.lookup, this]
      exact ih

theorem mapSet_fresh (m : List (String × objectRegister)) (name : String)
    (r : objectRegister) (h : m.lookup name = none) :
    mapSet m name r = m ++ [(name, r)] := by
  simp [mapSet, h]

/-- The three ways a call of `Bind` can go. -/
theorem Bind_cases (impl : sdi4goImpl) (name : String) (options : List BindOption) :
    ((impl.registers.lookup name).isSome = true ∧
        Bind impl name options = (.err ErrName, impl)) ∨
    (impl.registers.lookup name = none ∧ (Bind impl name options).2 = impl ∧
        ((Bind impl name options).1 = .panic ∨
          ∃ e, (Bind impl name options).1 = .err e ∧
            (e = ErrSingletonConstructor ∨ e = ErrSingletonType ∨
              e = ErrFactoryType))) ∨
    (impl.registers.lookup name = none ∧
      ∃ r0 r1 : objectRegister, ∃ u : Unit,
        applyOptions options
          { name := name, factory := .nil, objType := none, ptrType := none,
            singleton := .nil } = some r0 ∧
        checkOptions r0 = (.ok u, r1) ∧
        Bind impl name options =
          (.ok (), { registers := impl.registers ++ [(name, r1)] })) := by
  cases hl : impl.registers.lookup name with
  | some x => left; simp [Bind, hl]
  | none =>
    right
    cases ha : applyOptions options
        { name := name, factory := .nil, objType := none, ptrType := none,
          singleton := .nil } with
    | none => left; simp [Bind, hl, ha]
    | some r0 =>
      cases hc : checkOptions r0 with
      | mk o r1 =>
        cases o with
        | ok u =>
          right
          refine ⟨rfl, r0, r1, u, rfl, hc, ?_⟩
          simp [Bind, hl, ha, hc, mapSet_fresh]
        | err e =>
          left
          refine ⟨rfl, by simp [Bind, hl, ha, hc], Or.inr ⟨e, ?_, ?_⟩⟩
          · simp [Bind, hl, ha, hc]
          · exact checkOptions_err r0 r1 e hc
        | panic => left; simp [Bind, hl, ha, hc]

theorem mem_of_lookup (m : List (String × objectRegister)) (key : String)
    (r : objectRegister) (h : m.lookup key = some r) : (key, r) ∈ m := by
  induction m with
  | nil => simp [List.lookup] at h
  | cons e rest ih =>
    obtain ⟨k, v⟩ := e
    by_cases hk : key = k
    · subst hk
      simp [List.lookup] at h
      simp [h]
    · have : (key == k) = false := by simpa using hk
      simp only [List.lookup, this] at h
      exact List.mem_cons_of_mem _ (ih h)

/-- A call of `Bind` keeps every binding the container already has. -/
theorem Bind_lookup_preserved (impl : sdi4goImpl) (name : String)
    (options : List BindOption) (key : String) (r : objectRegister)
    (h : impl.registers.lookup key = some r) :
    (Bind impl name options).2.registers.lookup key = some r := by
  rcases Bind_cases impl name options with
    ⟨_, hb⟩ | ⟨_, hb, _⟩ | ⟨_, r0, r1, u, _, _, hb⟩
  · rw [hb]; exact h
  · rw [hb]; exact h
  · rw [hb]; simp [lookup_append_new, h]

/-- Every register of a reachable container was accepted by `checkOptions`. -/
theorem Reachable.accepted {impl : sdi4goImpl} (hr : Reachable impl) :
    ∀ e ∈ impl.registers, Accepted e.2 := by
  induction hr with
  | new => simp [New]
  | bind impl name options _ ih =>
    rcases Bind_cases impl name options with
      ⟨_, hb⟩ | ⟨_, hb, _⟩ | ⟨_, r0, r1, u, ha, hc, hb⟩
    · rw [hb]; exact ih
    · rw [hb]; exact ih
    · rw [hb]
      intro e he
      simp only [List.mem_append, List.mem_singleton] at he
      rcases he with he | rfl
      · exact ih e he
      · exact (checkOptions_accepted r0 r1 u hc).1

/-- The register found under a name bound with `Singleton(p)`. -/
theorem BoundWith.lookup_singleton {n : String} {p : Value} {impl : sdi4goImpl}
    (h : BoundWith n [Singleton p] impl) :
    ∃ T : GoType, T.Kind = Kind.Struct ∧ TypeOf p = some (.ptr T) ∧
      p.isNil = false ∧
      impl.registers.lookup n =
        some { name := n, factory := .nil, objType := some T,
               ptrType := some (.ptr T), singleton := p } := by
  induction h with
  | here impl hok =>
    rcases Bind_cases impl n [Singleton p] with
      ⟨_, hb⟩ | ⟨_, _, hb⟩ | ⟨hl, r0, r1, u, ha, hc, hb⟩
    · rw [hb] at hok; simp at hok
    · rcases hb with hb | ⟨e, hb, _⟩ <;> rw [hb] at hok <;> simp at hok
    · simp only [applyOptions, Singleton, Option.some.injEq] at ha
      subst ha
      obtain ⟨_, hs, T, hT, hty, rfl⟩ := checkOptions_ok _ r1 u hc
      refine ⟨T, hT, hty, hs, ?_⟩
      rw [hb]
      simp [lookup_append_new, hl]
  | later impl other more _ ih =>
    obtain ⟨T, hT, hty, hs, hl⟩ := ih
    exact ⟨T, hT, hty, hs, Bind_lookup_preserved impl other more n _ hl⟩

/-- The creation step of an accepted register returns its singleton and only
adds its own event to the log. -/
theorem create_accepted (fenv : FuncEnv) (r : objectRegister) (w : World)
    (hs : r.singleton.isNil = false) :
    create fenv r w =
      (.ok r.singleton, { w with log := w.log ++ [Event.create r.name] }) := by
  simp [create, hs]

/-- The value `Create` computes for a registered name, an accepted register
and a destination of pointer type `*X`. -/
theorem Create_registered (fenv : FuncEnv) (impl : sdi4goImpl) (name : String)
    (objectPtr : Value) (w : World) (X T : GoType) (r : objectRegister)
    (hty : TypeOf objectPtr = some (.ptr X))
    (hl : impl.registers.lookup name = some r)
    (hs : r.singleton.isNil = false)
    (hT : r.objType = some T) (hp : r.ptrType = some (.ptr T)) :
    Create fenv impl name objectPtr w =
      if X.Kind = Kind.Interface then
        if (GoType.ptr T).Implements X then
          match setElem objectPtr r.singleton
              { w with log := w.log ++ [Event.create r.name] } with
          | none => (.panic, { w with log := w.log ++ [Event.create r.name] })
          | some w2 => (.ok (), w2)
        else (.err ErrBindType, w)
      else if X.Kind = Kind.Ptr ∧ X.Elem.map GoType.Kind = some Kind.Struct then
        if some T = X.Elem then
          match setElem objectPtr r.singleton
              { w with log := w.log ++ [Event.create r.name] } with
          | none => (.panic, { w with log := w.log ++ [Event.create r.name] })
          | some w2 => (.ok (), w2)
        else (.err ErrBindType, w)
      else (.err ErrObjectPtr, w) := by
  have hk : rtypePtr.Kind = Kind.Ptr := rfl
  have he : (GoType.ptr X).Elem = some X := rfl
  simp only [Create, hty, TypeOfType, hk, he, hl,
    create_accepted fenv r w hs, hT, hp]
  by_cases h1 : X.Kind = Kind.Interface
  · by_cases h2 : (GoType.ptr T).Implements X = true
    · simp [h1, h2]
    · simp [h1, h2]
  · by_cases h3 : X.Kind = Kind.Ptr ∧ X.Elem.map GoType.Kind = some Kind.Struct
    · have h3c : (decide (X.Kind = Kind.Ptr)
          && decide (Option.map GoType.Kind X.Elem = some Kind.Struct)) = true := by
        simp only [Bool.and_eq_true, decide_eq_true_eq]; exact h3
      rw [if_neg h1, if_neg h1, if_pos h3c, if_pos h3]
      by_cases h4 : some T = X.Elem
      · rw [if_neg (not_not.2 h4), if_pos h4]; simp
      · rw [if_pos h4, if_neg h4]; simp
    · have h3c : ¬ (decide (X.Kind = Kind.Ptr)
          && decide (Option.map GoType.Kind X.Elem = some Kind.Struct)) = true := by
        simp only [Bool.and_eq_true, decide_eq_true_eq]; exact h3
      rw [if_neg h1, if_neg h1, if_neg h3c, if_neg h3]; simp

/-- A call of `Create` on a name bound with `Singleton(p)`, into a variable whose type
is `*T` or an interface that `*T` implements: it returns nil, logs the one
creation step and stores `p` in the variable. -/
theorem Create_singleton_store (fenv : FuncEnv) (impl : sdi4goImpl) (n : String)
    (T : GoType) (a : Option Nat) (X : GoType) (d : Nat) (w : World)
    (hbound : BoundWith n [Singleton (.ptr T a)] impl)
    (hX : X = .ptr T ∨
      (X.Kind = Kind.Interface ∧ (GoType.ptr T).Implements X = true)) :
    Create fenv impl n (.ptr X (some d)) w =
      (.ok (), { heap := Function.update w.heap d (.ptr T a),
                 log := w.log ++ [Event.create n] }) := by
  obtain ⟨T1, hT, hty, hs, hl⟩ := hbound.lookup_singleton
  simp only [TypeOf, Option.some.injEq, GoType.ptr.injEq] at hty
  subst hty
  rw [Create_registered fenv impl n (.ptr X (some d)) w X T _ rfl hl hs rfl rfl]
  rcases hX with rfl | ⟨hk, hi⟩
  · have h1 : ¬ (GoType.ptr T).Kind = Kind.Interface := by simp
    have h3 : (GoType.ptr T).Kind = Kind.Ptr ∧
        (GoType.ptr T).Elem.map GoType.Kind = some Kind.Struct := by
      simp [hT]
    have h4 : some T = (GoType.ptr T).Elem := rfl
    rw [if_neg h1, if_pos h3, if_pos h4]
    simp [setElem, TypeOf, GoType.AssignableTo]
  · rw [if_pos hk, if_pos hi]
    simp [setElem, TypeOf, GoType.AssignableTo, hk, hi]

/-! ## Facts about `CreateAll` -/

/-- Over registers that hold a singleton, a loop of `CreateAll` whose condition
evaluates to `f` returns the singletons of the registers satisfying `f`, in
the order of the iteration, and logs their creation steps. -/
theorem collect_singletons (fenv : FuncEnv) (test : objectRegister → Option Bool)
    (f : objectRegister → Bool) :
    ∀ (iter : List objectRegister) (storaged : List Value) (w : World),
      (∀ r ∈ iter, r.singleton.isNil = false ∧ test r = some (f r)) →
      collect fenv test iter storaged w =
        (.ok (storaged ++ (iter.filter f).map (fun r => r.singleton)),
         { w with log := w.log ++
             (iter.filter f).map (fun r => Event.create r.name) }) := by
  intro iter
  induction iter with
  | nil => intro storaged w _; simp [collect]
  | cons r rest ih =>
    intro storaged w h
    obtain ⟨hs, ht⟩ := h r (List.mem_cons_self _ _)
    have hrest : ∀ r ∈ rest, r.singleton.isNil = false ∧ test r = some (f r) :=
      fun x hx => h x (List.mem_cons_of_mem _ hx)
    cases hf : f r with
    | false =>
      simp only [collect, ht, hf, ih storaged w hrest]
      simp [hf]
    | true =>
      simp only [collect, ht, hf, create_accepted fenv r w hs, ih _ _ hrest]
      simp [hf]

/-- On an accepted register the conditions of the two loops of `CreateAll`
evaluate to `providerMatches`. -/
theorem tests_eq_providerMatches (E : GoType) (r : objectRegister)
    (hacc : Accepted r)
    (hE : E.Kind = Kind.Interface ∨ ∃ S, E = .ptr S ∧ S.Kind = Kind.Struct) :
    (E.Kind = Kind.Interface → ifaceTest E r = some (providerMatches E r)) ∧
    (¬ E.Kind = Kind.Interface → structTest E r = some (providerMatches E r)) := by
  obtain ⟨_, _, T, hT, hobj, hptr, _⟩ := hacc
  constructor
  · intro hk
    obtain ⟨n, ms, rfl⟩ := (kind_iface_iff E).1 hk
    simp [ifaceTest, providerMatches, hobj, hptr]
  · intro hk
    rcases hE with hk1 | ⟨S, rfl, _⟩
    · exact absurd hk1 hk
    · simp [structTest, providerMatches]

/-- The singleton of an accepted register that matches `E` can be stored in a
variable of type `E`. -/
theorem matching_assignable (E : GoType) (r : objectRegister) (hacc : Accepted r)
    (hm : providerMatches E r = true) :
    ∃ vt, TypeOf r.singleton = some vt ∧ vt.AssignableTo E = true := by
  obtain ⟨_, _, T, hT, hobj, hptr, hty⟩ := hacc
  refine ⟨.ptr T, hty, ?_⟩
  cases E <;> simp [providerMatches, hobj, hptr] at hm
  case iface n ms => simp [GoType.AssignableTo, hm]
  case ptr S => subst hm; simp [GoType.AssignableTo]

/-- A call of `CreateAll` over accepted registers, into a destination of type `*[]E`
with `E` an interface or a pointer to a struct: the loop collects the
singletons of the matching registers and the tail stores them. -/
theorem CreateAll_accepted (fenv : FuncEnv) (iter : List objectRegister)
    (objectSlice : Value) (E : GoType) (w : World)
    (hacc : ∀ r ∈ iter, Accepted r)
    (hty : TypeOf objectSlice = some (.ptr (.slice E)))
    (hE : E.Kind = Kind.Interface ∨ ∃ S, E = .ptr S ∧ S.Kind = Kind.Struct) :
    CreateAll fenv iter objectSlice w =
      storeSlice E ((iter.filter (providerMatches E)).map (fun r => r.singleton))
        objectSlice
        { w with log := w.log ++
            (iter.filter (providerMatches E)).map (fun r => Event.create r.name) } := by
  simp only [CreateAll, hty, kind_ptr, elem_ptr, kind_slice, elem_slice]
  by_cases hk : E.Kind = Kind.Interface
  · have h := collect_singletons fenv (ifaceTest E) (providerMatches E) iter [] w
      (fun r hr => ⟨(hacc r hr).singleton_set,
        (tests_eq_providerMatches E r (hacc r hr) hE).1 hk⟩)
    simp [hk, h]
  · have h := collect_singletons fenv (structTest E) (providerMatches E) iter [] w
      (fun r hr => ⟨(hacc r hr).singleton_set,
        (tests_eq_providerMatches E r (hacc r hr) hE).2 hk⟩)
    have hp : E.Kind = Kind.Ptr ∧ E.Elem.map GoType.Kind = some Kind.Struct := by
      rcases hE with hk1 | ⟨S, rfl, hS⟩
      · exact absurd hk1 hk
      · simp [hS]
    have hpc : (decide (E.Kind = Kind.Ptr)
        && decide (Option.map GoType.Kind E.Elem = some Kind.Struct)) = true := by
      simp only [Bool.and_eq_true, decide_eq_true_eq]; exact hp
    rw [if_neg hk, if_pos hpc, h]
    simp

/-- A call of `CreateAll` into a destination of type `*[]E` returns `ErrSliceType` when
`E` is neither an interface nor a pointer to a struct. -/
theorem CreateAll_bad_elem (fenv : FuncEnv) (iter : List objectRegister)
    (objectSlice : Value) (E : GoType) (w : World)
    (hty : TypeOf objectSlice = some (.ptr (.slice E)))
    (hE : ¬ (E.Kind = Kind.Interface ∨ ∃ S, E = .ptr S ∧ S.Kind = Kind.Struct)) :
    CreateAll fenv iter objectSlice w = (.err ErrSliceType, w) := by
  simp only [CreateAll, hty, kind_ptr, elem_ptr, kind_slice, elem_slice]
  have hk : ¬ E.Kind = Kind.Interface := fun h => hE (Or.inl h)
  have hpc : ¬ (decide (E.Kind = Kind.Ptr)
      && decide (Option.map GoType.Kind E.Elem = some Kind.Struct)) = true := by
    simp only [Bool.and_eq_true, decide_eq_true_eq]
    rintro ⟨h1, h2⟩
    obtain ⟨S, rfl⟩ := (kind_ptr_iff E).1 h1
    exact hE (Or.inr ⟨S, rfl, by simpa using h2⟩)
  rw [if_neg hk, if_neg hpc]
  simp

/-- The tail of `CreateAll` on the singletons of matching accepted registers
passes the check of every `Index(i).Set`. -/
theorem storeSlice_matching (E : GoType) (rs : List objectRegister)
    (objectSlice : Value) (w : World)
    (hacc : ∀ r ∈ rs, Accepted r)
    (hm : ∀ r ∈ rs, providerMatches E r = true) :
    storeSlice E (rs.map (fun r => r.singleton)) objectSlice w =
      if rs.length > 0 then
        match setElem objectSlice (.slice E (rs.map (fun r => r.singleton))) w with
        | none => (.panic, w)
        | some w1 => (.ok (), w1)
      else (.ok (), w) := by
  have hall : (rs.map (fun r => r.singleton)).all (fun v =>
      match TypeOf v with
      | none => false
      | some vt => vt.AssignableTo E) = true := by
    rw [List.all_eq_true]
    intro v hv
    obtain ⟨r, hr, rfl⟩ := List.mem_map.1 hv
    obtain ⟨vt, hty, ha⟩ := matching_assignable E r (hacc r hr) (hm r hr)
    simp [hty, ha]
  simp only [storeSlice, List.length_map, hall, if_true]

/-! ## The claims -/

/-- C1: in every container in which the name `n` was bound with
`Singleton(p)`, `p` a pointer to the struct `T`, a call `Create(n, &x)` with
`x` of type `*T` or of an interface type that `*T` implements returns nil and
stores in `x` the pointer `p` itself; a second such call, into a variable of
either shape, returns nil as well and stores the same pointer `p`. -/
theorem C1_singleton_create_identical (fenv : FuncEnv) (impl : sdi4goImpl)
    (n : String) (T : GoType) (a : Option Nat) (X X2 : GoType) (d d2 : Nat)
    (w : World)
    (hbound : BoundWith n [Singleton (.ptr T a)] impl)
    (hX : X = .ptr T ∨
      (X.Kind = Kind.Interface ∧ (GoType.ptr T).Implements X = true))
    (hX2 : X2 = .ptr T ∨
      (X2.Kind = Kind.Interface ∧ (GoType.ptr T).Implements X2 = true)) :
    Create fenv impl n (.ptr X (some d)) w =
      (.ok (), { heap := Function.update w.heap d (.ptr T a),
                 log := w.log ++ [Event.create n] }) ∧
    (Create fenv impl n (.ptr X2 (some d2))
      (Create fenv impl n (.ptr X (some d)) w).2).1 = .ok () ∧
    (Create fenv impl n (.ptr X2 (some d2))
      (Create fenv impl n (.ptr X (some d)) w).2).2.heap d2 = .ptr T a := by
  refine ⟨Create_singleton_store fenv impl n T a X d w hbound hX, ?_, ?_⟩
  · rw [Create_singleton_store fenv impl n T a X2 d2 _ hbound hX2]
  · rw [Create_singleton_store fenv impl n T a X2 d2 _ hbound hX2]
    simp

/-- C1 at the container of `TestInjectorGet`: `Create("a1", &a1)` with `a1` of
type `*testA`, then `Create("a1", &sayHello2)` with `sayHello2` of type
`Hello`. -/
theorem C1_witness :
    Create noFuncs testContainer "a1" (.ptr (.ptr testA) (some 100)) emptyWorld =
      (.ok (), { heap := Function.update emptyWorld.heap 100 (.ptr testA (some 11)),
                 log := emptyWorld.log ++ [Event.create "a1"] }) ∧
    (Create noFuncs testContainer "a1" (.ptr Hello (some 101))
      (Create noFuncs testContainer "a1" (.ptr (.ptr testA) (some 100))
        emptyWorld).2).1 = .ok () ∧
    (Create noFuncs testContainer "a1" (.ptr Hello (some 101))
      (Create noFuncs testContainer "a1" (.ptr (.ptr testA) (some 100))
        emptyWorld).2).2.heap 101 = .ptr testA (some 11) :=
  C1_singleton_create_identical noFuncs testContainer "a1" testA (some 11)
    (.ptr testA) Hello 100 101 emptyWorld
    (BoundWith.later _ "a2" [Singleton a22] (BoundWith.here New rfl))
    (Or.inl rfl) (Or.inr ⟨rfl, rfl⟩)

/-- C2: when the container already has the name `n`, `Bind(n, options...)`
returns `ErrName` for every option list and leaves the container as it was,
so that every later `Create(n, ...)` does what it did before the call. -/
theorem C2_rebind_fails (impl : sdi4goImpl) (n : String)
    (options : List BindOption)
    (h : (impl.registers.lookup n).isSome = true) :
    Bind impl n options = (.err ErrName, impl) ∧
    ∀ (fenv : FuncEnv) (objectPtr : Value) (w : World),
      Create fenv (Bind impl n options).2 n objectPtr w =
        Create fenv impl n objectPtr w := by
  have hb : Bind impl n options = (.err ErrName, impl) := by
    rcases Bind_cases impl n options with ⟨_, hb⟩ | ⟨hl, _⟩ | ⟨hl, _⟩
    · exact hb
    · rw [hl] at h; simp at h
    · rw [hl] at h; simp at h
  refine ⟨hb, ?_⟩
  intro fenv objectPtr w
  rw [hb]

/-- C2 at the container of `TestInjectorGet`: binding `"a1"` again, to another
singleton and to the nil option. -/
theorem C2_witness :
    Bind testContainer "a1" [Singleton a22, none] = (.err ErrName, testContainer) ∧
    ∀ (fenv : FuncEnv) (objectPtr : Value) (w : World),
      Create fenv (Bind testContainer "a1" [Singleton a22, none]).2 "a1"
          objectPtr w =
        Create fenv testContainer "a1" objectPtr w :=
  C2_rebind_fails testContainer "a1" [Singleton a22, none] rfl

/-- C3: `Bind` is atomic.  Whenever `Bind` returns an error, the container
after the call is the container before it, and the error is one of
`ErrName`, `ErrSingletonConstructor`, `ErrSingletonType` and
`ErrFactoryType`. -/
theorem C3_bind_atomic (impl : sdi4goImpl) (n : String)
    (options : List BindOption) (e : Value)
    (h : (Bind impl n options).1 = .err e) :
    (Bind impl n options).2 = impl ∧
    (e = ErrName ∨ e = ErrSingletonConstructor ∨ e = ErrSingletonType ∨
      e = ErrFactoryType) := by
  rcases Bind_cases impl n options with ⟨_, hb⟩ | ⟨_, hi, hb⟩ | ⟨_, _, _, _, _, _, hb⟩
  · rw [hb] at h ⊢
    simp only [Outcome.err.injEq] at h
    exact ⟨rfl, Or.inl h.symm⟩
  · refine ⟨hi, ?_⟩
    rcases hb with hb | ⟨e1, hb, he⟩
    · rw [hb] at h; simp at h
    · rw [hb] at h
      simp only [Outcome.err.injEq] at h
      subst h
      exact Or.inr he
  · rw [hb] at h; simp at h

/-- C3 at a singleton that is not a pointer: `Bind("v", Singleton(testA{}))`
on the container of `TestInjectorGet`. -/
theorem C3_witness :
    (Bind testContainer "v" [Singleton (.other testA 0)]).2 = testContainer ∧
    (ErrSingletonType = ErrName ∨ ErrSingletonType = ErrSingletonConstructor ∨
      ErrSingletonType = ErrSingletonType ∨ ErrSingletonType = ErrFactoryType) :=
  C3_bind_atomic testContainer "v" [Singleton (.other testA 0)] ErrSingletonType rfl

/-- C4: the call of `TestInjectorProperty`, `Create("p", &p1)` with `p1` a
plain `Property` value and `"p"` bound to a pointer to a `Property`, does not
copy the struct: the destination `*Property` has a pointee that is neither an
interface nor a pointer to a struct, `Create` returns `ErrObjectPtr`, and the
variable and the log are left as they were. -/
theorem C4_plain_struct_destination_rejected :
    Create noFuncs propertyContainer "p" (.ptr Property (some 100)) emptyWorld =
      (.err ErrObjectPtr, emptyWorld) := rfl

/-- C5: for every factory of type `func() (*T, E)`, with `T` a struct and `E`
implementing `error`, `checkOptions` does not return: it sets `ptrType` to
`T` and panics on `T.Elem()`.  So `Bind` of such a factory under a fresh name
panics and the container gets no entry. -/
theorem C5_valid_factory_panics (impl : sdi4goImpl) (n : String) (f : Value)
    (T E : GoType) (r : objectRegister)
    (hty : TypeOf f = some (.func .nil (.cons (.ptr T) (.cons E .nil))))
    (hT : T.Kind = Kind.Struct) (hE : E.Implements errorInterface = true)
    (hfresh : impl.registers.lookup n = none) :
    checkOptions { r with factory := f } =
      (.panic, { r with factory := f, ptrType := some T }) ∧
    Bind impl n [Constructor f] = (.panic, impl) := by
  have hnil : f.isNil = false := by
    cases f <;> simp [TypeOf, Value.isNil] at hty ⊢
  have hc : ∀ r0 : objectRegister, checkOptions { r0 with factory := f } =
      (.panic, { r0 with factory := f, ptrType := some T }) := by
    intro r0
    simp [checkOptions, hnil, hty, GoType.NumIn, GoType.NumOut,
      GoType.Out, TypeList.length, TypeList.get?, hT, hE,
      kind_struct_elem_none T hT]
  refine ⟨hc r, ?_⟩
  have h2 := hc { name := n, factory := .nil, objType := none, ptrType := none,
                  singleton := .nil }
  simp only [Bind, hfresh, applyOptions, Constructor, h2]

/-- C5 at a constructor of the test type: `func() (*testA, error)`. -/
theorem C5_witness :
    checkOptions
        { name := "f", factory := .func (.func .nil
            (.cons (.ptr testA) (.cons errorInterface .nil))) 7,
          objType := none, ptrType := none, singleton := .nil } =
      (.panic,
        { name := "f", factory := .func (.func .nil
            (.cons (.ptr testA) (.cons errorInterface .nil))) 7,
          objType := none, ptrType := some testA, singleton := .nil }) ∧
    Bind New "f" [Constructor (.func (.func .nil
        (.cons (.ptr testA) (.cons errorInterface .nil))) 7)] = (.panic, New) :=
  C5_valid_factory_panics New "f" _ testA errorInterface
    { name := "f", factory := .nil, objType := none, ptrType := none,
      singleton := .nil } rfl rfl rfl rfl

/-- C6: destinations that are not pointers are not answered with
`ErrObjectPtr`.  On the container of `TestInjectorGet`: with a `testA` struct
value `Create` panics (at `objType.Elem()`), for a registered and for an
unregistered name; with a `[]Hello` slice and an unregistered name it returns
`ErrNotFound`; with a `[]Hello` slice and the name `"a1"` it invokes the
provider and then panics. -/
theorem C6_non_pointer_destination :
    Create noFuncs testContainer "a1" (.other testA 1) emptyWorld =
      (.panic, emptyWorld) ∧
    Create noFuncs testContainer "missing" (.other testA 1) emptyWorld =
      (.panic, emptyWorld) ∧
    Create noFuncs testContainer "missing" (.slice Hello []) emptyWorld =
      (.err ErrNotFound, emptyWorld) ∧
    (Create noFuncs testContainer "a1" (.slice Hello []) emptyWorld).1 = .panic ∧
    (Create noFuncs testContainer "a1" (.slice Hello []) emptyWorld).2.log =
      [Event.create "a1"] :=
  ⟨rfl, rfl, rfl, rfl, rfl⟩

/-- C7: for a name registered in a reachable container and a destination of
pointer type `*X`: when `X` is an interface, `Create` returns `ErrBindType`
exactly when the register's `ptrType` does not implement `X`; when `X` is
`*S` with `S` a struct, `Create` returns `ErrBindType` exactly when the
register's `objType` is not `S`; and whenever `Create` returns `ErrBindType`
the world is unchanged: the creation step was not invoked (nothing is logged)
and no variable was written. -/
theorem C7_bind_type_mismatch (fenv : FuncEnv) (impl : sdi4goImpl)
    (name : String) (objectPtr : Value) (w : World) (X : GoType)
    (r : objectRegister)
    (hr : Reachable impl) (hl : impl.registers.lookup name = some r)
    (hty : TypeOf objectPtr = some (.ptr X)) :
    (X.Kind = Kind.Interface →
      ∃ ptrType, r.ptrType = some ptrType ∧
        ((Create fenv impl name objectPtr w).1 = .err ErrBindType ↔
          ptrType.Implements X = false)) ∧
    (∀ S : GoType, X = .ptr S → S.Kind = Kind.Struct →
      ∃ objType, r.objType = some objType ∧
        ((Create fenv impl name objectPtr w).1 = .err ErrBindType ↔
          objType ≠ S)) ∧
    ((Create fenv impl name objectPtr w).1 = .err ErrBindType →
      (Create fenv impl name objectPtr w).2 = w) := by
  obtain ⟨_, hs, T, hT, hobj, hptr, _⟩ :=
    hr.accepted (name, r) (mem_of_lookup _ _ _ hl)
  have hc := Create_registered fenv impl name objectPtr w X T r hty hl hs hobj hptr
  have hne : ErrObjectPtr ≠ ErrBindType := by simp [ErrObjectPtr, ErrBindType]
  refine ⟨?_, ?_, ?_⟩
  · intro hk
    refine ⟨.ptr T, hptr, ?_⟩
    rw [hc, if_pos hk]
    by_cases hi : (GoType.ptr T).Implements X = true
    · rw [if_pos hi]
      cases setElem objectPtr r.singleton _ <;> simp [hi]
    · rw [if_neg hi]
      simpa using hi
  · rintro S rfl hS
    refine ⟨T, hobj, ?_⟩
    have h1 : ¬ (GoType.ptr S).Kind = Kind.Interface := by simp
    have h3 : (GoType.ptr S).Kind = Kind.Ptr ∧
        (GoType.ptr S).Elem.map GoType.Kind = some Kind.Struct := by
      simp [hS]
    rw [hc, if_neg h1, if_pos h3]
    by_cases h4 : T = S
    · subst h4
      have h4 : some T = (GoType.ptr T).Elem := rfl
      rw [if_pos h4]
      cases setElem objectPtr r.singleton _ <;> simp
    · have h4b : ¬ some T = (GoType.ptr S).Elem := by simpa using h4
      rw [if_neg h4b]
      simpa using h4
  · rw [hc]
    intro h
    split_ifs at h ⊢ with h1 h2 h3 h4
    · revert h; cases setElem objectPtr r.singleton _ <;> simp
    · rfl
    · revert h; cases setElem objectPtr r.singleton _ <;> simp
    · rfl
    · exact absurd (by simpa using h) hne

/-- C7 at the container of `TestInjectorGet`: `Create("a1", &x)` with `x` of
type `*Property` returns `ErrBindType` and changes nothing. -/
theorem C7_witness :
    ((GoType.ptr Property).Kind = Kind.Interface →
      ∃ ptrType, (⟨"a1", .nil, some testA, some (.ptr testA), a11⟩ :
          objectRegister).ptrType = some ptrType ∧
        ((Create noFuncs testContainer "a1" (.ptr (.ptr Property) (some 100))
            emptyWorld).1 = .err ErrBindType ↔
          ptrType.Implements (.ptr Property) = false)) ∧
    (∀ S : GoType, GoType.ptr Property = .ptr S → S.Kind = Kind.Struct →
      ∃ objType, (⟨"a1", .nil, some testA, some (.ptr testA), a11⟩ :
          objectRegister).objType = some objType ∧
        ((Create noFuncs testContainer "a1" (.ptr (.ptr Property) (some 100))
            emptyWorld).1 = .err ErrBindType ↔
          objType ≠ S)) ∧
    ((Create noFuncs testContainer "a1" (.ptr (.ptr Property) (some 100))
        emptyWorld).1 = .err ErrBindType →
      (Create noFuncs testContainer "a1" (.ptr (.ptr Property) (some 100))
        emptyWorld).2 = emptyWorld) :=
  C7_bind_type_mismatch noFuncs testContainer "a1"
    (.ptr (.ptr Property) (some 100)) emptyWorld (.ptr Property)
    ⟨"a1", .nil, some testA, some (.ptr testA), a11⟩
    (Reachable.bind _ "a2" [Singleton a22]
      (Reachable.bind _ "a1" [Singleton a11] Reachable.new))
    rfl rfl

/-- C8: for a name that is not in the container and a destination of any
pointer type `*X`, whatever `X` is, `Create` returns `ErrNotFound` and leaves
the world unchanged.  (The container is only read by `Create`.) -/
theorem C8_not_found (fenv : FuncEnv) (impl : sdi4goImpl) (name : String)
    (objectPtr : Value) (w : World) (X : GoType)
    (hl : impl.registers.lookup name = none)
    (hty : TypeOf objectPtr = some (.ptr X)) :
    Create fenv impl name objectPtr w = (.err ErrNotFound, w) := by
  have hk : rtypePtr.Kind = Kind.Ptr := rfl
  simp [Create, hty, TypeOfType, hk, hl]

/-- C8 at the call `Create("test", &a1)` of `TestInjectorGet`, and at a
destination `*int`, whose pointee shape `Create` rejects for a registered
name. -/
theorem C8_witness :
    Create noFuncs testContainer "test" (.ptr (.basic .int) (some 100)) emptyWorld =
      (.err ErrNotFound, emptyWorld) :=
  C8_not_found noFuncs testContainer "test" (.ptr (.basic .int) (some 100))
    emptyWorld (.basic .int) rfl rfl

/-- C9: in a reachable container (all of whose providers are singleton
providers), for every order in which the map iteration visits the registers
and every destination of type `*[]E`, a `CreateAll` that returns nil and has
at least one matching provider (its `ptrType` implements `E`, for `E` an
interface; its `objType` is `S`, for `E` the pointer type `*S`) stores
through the destination pointer a slice of element type `E` whose items
are, up to order, the singletons of the matching providers, one for each; its
length is the number of matching providers. -/
theorem C9_create_all_exact (fenv : FuncEnv) (impl : sdi4goImpl)
    (iter : List objectRegister) (E : GoType) (addr : Option Nat) (w : World)
    (hr : Reachable impl) (hiter : IterationOrder impl iter)
    (hok : (CreateAll fenv iter (.ptr (.slice E) addr) w).1 = .ok ())
    (hmatch : ∃ e ∈ impl.registers, providerMatches E e.2 = true) :
    ∃ (a : Nat) (items : List Value), addr = some a ∧
      (CreateAll fenv iter (.ptr (.slice E) addr) w).2.heap a = .slice E items ∧
      items.Perm (((impl.registers.map Prod.snd).filter (providerMatches E)).map
        (fun r => r.singleton)) ∧
      items.length =
        ((impl.registers.map Prod.snd).filter (providerMatches E)).length := by
  have hE : E.Kind = Kind.Interface ∨ ∃ S, E = .ptr S ∧ S.Kind = Kind.Struct := by
    by_contra hE
    rw [CreateAll_bad_elem fenv iter (.ptr (.slice E) addr) E w rfl hE] at hok
    simp at hok
  have hacc : ∀ r ∈ iter, Accepted r := by
    intro r hr1
    obtain ⟨e, he, rfl⟩ := List.mem_map.1 (hiter.subset hr1)
    exact hr.accepted e he
  have hperm : (iter.filter (providerMatches E)).Perm
      ((impl.registers.map Prod.snd).filter (providerMatches E)) :=
    hiter.filter _
  have hpos : (iter.filter (providerMatches E)).length > 0 := by
    obtain ⟨e, he, hm⟩ := hmatch
    rw [hperm.length_eq]
    exact List.length_pos_of_mem
      (List.mem_filter.2 ⟨List.mem_map.2 ⟨e, he, rfl⟩, hm⟩)
  have hc := CreateAll_accepted fenv iter (.ptr (.slice E) addr) E w hacc rfl hE
  rw [storeSlice_matching E _ _ _
    (fun r hr1 => hacc r (List.mem_filter.1 hr1).1)
    (fun r hr1 => (List.mem_filter.1 hr1).2), if_pos hpos] at hc
  cases addr with
  | none =>
    rw [hc] at hok
    simp [setElem] at hok
  | some a =>
    refine ⟨a, (iter.filter (providerMatches E)).map (fun r => r.singleton), rfl,
      ?_, hperm.map _, ?_⟩
    · rw [hc]
      simp [setElem, TypeOf, GoType.AssignableTo]
    · rw [List.length_map, hperm.length_eq]

/-- C9 at `TestInjectorGet`: `CreateAll(&sayHello)` with `sayHello` of type
`[]Hello`, the map iteration visiting `"a2"` before `"a1"`. -/
theorem C9_witness :
    ∃ (a : Nat) (items : List Value), some 100 = some a ∧
      (CreateAll noFuncs
        [⟨"a2", .nil, some testA, some (.ptr testA), a22⟩,
         ⟨"a1", .nil, some testA, some (.ptr testA), a11⟩]
        (.ptr (.slice Hello) (some 100)) emptyWorld).2.heap a = .slice Hello items ∧
      items.Perm (((testContainer.registers.map Prod.snd).filter
        (providerMatches Hello)).map (fun r => r.singleton)) ∧
      items.length =
        ((testContainer.registers.map Prod.snd).filter
          (providerMatches Hello)).length :=
  C9_create_all_exact noFuncs testContainer
    [⟨"a2", .nil, some testA, some (.ptr testA), a22⟩,
     ⟨"a1", .nil, some testA, some (.ptr testA), a11⟩]
    Hello (some 100) emptyWorld
    (Reachable.bind _ "a2" [Singleton a22]
      (Reachable.bind _ "a1" [Singleton a11] Reachable.new))
    (List.Perm.swap _ _ [])
    rfl
    ⟨("a1", ⟨"a1", .nil, some testA, some (.ptr testA), a11⟩),
      List.Mem.head _, rfl⟩

/-- C10: in a reachable container, for every order of the map iteration and
every destination of type `*[]E` with `E` an interface or a pointer to a
struct, when no registered provider matches `E`, `CreateAll` returns nil and
leaves the world as it was: the destination slice is not written and no
creation step is invoked. -/
theorem C10_no_match_untouched (fenv : FuncEnv) (impl : sdi4goImpl)
    (iter : List objectRegister) (objectSlice : Value) (E : GoType) (w : World)
    (hr : Reachable impl) (hiter : IterationOrder impl iter)
    (hty : TypeOf objectSlice = some (.ptr (.slice E)))
    (hE : E.Kind = Kind.Interface ∨ ∃ S, E = .ptr S ∧ S.Kind = Kind.Struct)
    (hnone : ∀ e ∈ impl.registers, providerMatches E e.2 = false) :
    CreateAll fenv iter objectSlice w = (.ok (), w) := by
  have hacc : ∀ r ∈ iter, Accepted r := by
    intro r hr1
    obtain ⟨e, he, rfl⟩ := List.mem_map.1 (hiter.subset hr1)
    exact hr.accepted e he
  have hempty : iter.filter (providerMatches E) = [] := by
    rw [List.filter_eq_nil_iff]
    intro r hr1
    obtain ⟨e, he, rfl⟩ := List.mem_map.1 (hiter.subset hr1)
    simp [hnone e he]
  rw [CreateAll_accepted fenv iter objectSlice E w hacc hty hE, hempty]
  simp [storeSlice]

/-- C10 at the container of `TestInjectorGet` and a destination of type
`*[]*Property` that holds a slice of one nil pointer: the variable keeps its
content. -/
theorem C10_witness :
    CreateAll noFuncs
        [⟨"a2", .nil, some testA, some (.ptr testA), a22⟩,
         ⟨"a1", .nil, some testA, some (.ptr testA), a11⟩]
        (.ptr (.slice (.ptr Property)) (some 100))
        { heap := fun _ => .slice (.ptr Property) [.ptr Property none],
          log := [] } =
      (.ok (), { heap := fun _ => .slice (.ptr Property) [.ptr Property none],
                 log := [] }) :=
  C10_no_match_untouched noFuncs testContainer
    [⟨"a2", .nil, some testA, some (.ptr testA), a22⟩,
     ⟨"a1", .nil, some testA, some (.ptr testA), a11⟩]
    (.ptr (.slice (.ptr Property)) (some 100)) (.ptr Property)
    { heap := fun _ => .slice (.ptr Property) [.ptr Property none], log := [] }
    (Reachable.bind _ "a2" [Singleton a22]
      (Reachable.bind _ "a1" [Singleton a11] Reachable.new))
    (List.Perm.swap _ _ [])
    rfl (Or.inr ⟨Property, rfl, rfl⟩)
    (by
      intro e he
      have he2 : e ∈ [("a1", (⟨"a1", .nil, some testA, some (.ptr testA), a11⟩ :
            objectRegister)),
          ("a2", ⟨"a2", .nil, some testA, some (.ptr testA), a22⟩)] := he
      simp only [List.mem_cons, List.mem_singleton, List.not_mem_nil, or_false]
        at he2
      rcases he2 with rfl | rfl <;> rfl)

/-! ## Facts about validation and creation -/

theorem typeOf_of_not_nil (v : Value) (h : v.isNil = false) :
    ∃ t, TypeOf v = some t := by
  cases v <;> simp [Value.isNil, TypeOf] at h ⊢

theorem not_nil_of_typeOf (v : Value) (t : GoType) (h : TypeOf v = some t) :
    v.isNil = false := by
  cases v <;> simp [Value.isNil, TypeOf] at h ⊢

/-- The value of `checkOptions` on the singleton path, case by case. -/
theorem checkOptions_singleton_path (r : objectRegister)
    (hf : r.factory.isNil = true) :
    (r.singleton.isNil = true →
      checkOptions r = (.err ErrSingletonConstructor, r)) ∧
    (∀ t, TypeOf r.singleton = some t → t.Kind ≠ Kind.Ptr →
      checkOptions r = (.err ErrSingletonType, { r with objType := some t })) ∧
    (∀ e, TypeOf r.singleton = some (.ptr e) → e.Kind ≠ Kind.Struct →
      checkOptions r = (.err ErrSingletonType,
        { r with objType := some e, ptrType := some (.ptr e) })) ∧
    (∀ e, TypeOf r.singleton = some (.ptr e) → e.Kind = Kind.Struct →
      checkOptions r = (.ok (),
        { r with objType := some e, ptrType := some (.ptr e) })) := by
  refine ⟨?_, ?_, ?_, ?_⟩
  · intro hs
    simp [checkOptions, hf, hs]
  · intro t ht hk
    have hs := not_nil_of_typeOf _ _ ht
    simp [checkOptions, hf, hs, ht, hk]
  · intro e ht hk
    have hs := not_nil_of_typeOf _ _ ht
    simp [checkOptions, hf, hs, ht, hk]
  · intro e ht hk
    have hs := not_nil_of_typeOf _ _ ht
    simp [checkOptions, hf, hs, ht, hk]

theorem kind_func_iff (t : GoType) :
    t.Kind = Kind.Func ↔ ∃ ins outs, t = .func ins outs := by
  cases t <;> simp [GoType.Kind]
  case basic b => cases b <;> simp [Basic.kind]

/-- The method `checkOptions` rejects every factory whose type is not valid. -/
theorem checkOptions_invalid_factory (r : objectRegister) (ft : GoType)
    (hty : TypeOf r.factory = some ft) (hbad : validFactoryType ft = false) :
    checkOptions r = (.err ErrFactoryType, r) := by
  have hnil := not_nil_of_typeOf _ _ hty
  by_cases hk : ft.Kind = Kind.Func
  · obtain ⟨ins, outs, rfl⟩ := (kind_func_iff ft).1 hk
    cases ins with
    | cons t ts =>
      simp [checkOptions, hnil, hty, GoType.NumIn, GoType.NumOut, TypeList.length]
    | nil =>
      cases outs with
      | nil =>
        simp [checkOptions, hnil, hty, GoType.NumIn, GoType.NumOut, TypeList.length]
      | cons t1 o1 =>
        cases o1 with
        | nil =>
          simp [checkOptions, hnil, hty, GoType.NumIn, GoType.NumOut,
            TypeList.length]
        | cons t2 o2 =>
          cases o2 with
          | cons t3 o3 =>
            simp [checkOptions, hnil, hty, GoType.NumIn, GoType.NumOut,
              TypeList.length]
          | nil =>
            by_cases hp : t1.Kind = Kind.Ptr
            · obtain ⟨T, rfl⟩ := (kind_ptr_iff t1).1 hp
              simp only [validFactoryType, Bool.and_eq_false_iff,
                decide_eq_false_iff_not] at hbad
              rcases hbad with hT | hE
              · simp [checkOptions, hnil, hty, GoType.NumIn, GoType.NumOut,
                  GoType.Out, TypeList.length, TypeList.get?, hT]
              · by_cases hT : T.Kind = Kind.Struct
                · simp [checkOptions, hnil, hty, GoType.NumIn, GoType.NumOut,
                    GoType.Out, TypeList.length, TypeList.get?, hT, hE]
                · simp [checkOptions, hnil, hty, GoType.NumIn, GoType.NumOut,
                    GoType.Out, TypeList.length, TypeList.get?, hT]
            · simp [checkOptions, hnil, hty, GoType.NumIn, GoType.NumOut,
                GoType.Out, TypeList.length, TypeList.get?, hp]
  · simp [checkOptions, hnil, hty, hk]

/-- On the factory path `checkOptions` does not read the singleton. -/
theorem checkOptions_factory_path (r : objectRegister) (s : Value)
    (hf : r.factory.isNil = false) :
    (checkOptions r).1 = (checkOptions { r with singleton := s }).1 := by
  simp only [checkOptions, hf]
  repeat' split
  all_goals simp_all

/-- What the call of a factory of type `func() (O, E)` yields when the
function returns the two results `obj` and `e`. -/
theorem callFactory_two_results (fenv : FuncEnv) (w : World) (id : Nat)
    (O E : GoType) (obj e : Value) (h1 : Heap)
    (hres : fenv id w.heap = ([obj, e], h1)) :
    callFactory fenv (.func (.func .nil (.cons O (.cons E .nil))) id) w =
      match IsNil E e with
      | none => (.panic, { heap := h1, log := w.log ++ [Event.call id] })
      | some true => (.ok obj, { heap := h1, log := w.log ++ [Event.call id] })
      | some false =>
        match TypeOf e with
        | none => (.panic, { heap := h1, log := w.log ++ [Event.call id] })
        | some et =>
          if et.Implements errorInterface then
            (.err e, { heap := h1, log := w.log ++ [Event.call id] })
          else (.panic, { heap := h1, log := w.log ++ [Event.call id] }) := by
  simp [callFactory, GoType.NumIn, GoType.Out, TypeList.length, TypeList.get?, hres]

/-- The loop of `CreateAll` over a concatenation. -/
theorem collect_append (fenv : FuncEnv) (test : objectRegister → Option Bool)
    (pre rest : List objectRegister) :
    ∀ (storaged : List Value) (w : World),
      collect fenv test (pre ++ rest) storaged w =
        match collect fenv test pre storaged w with
        | (.ok st, w1) => collect fenv test rest st w1
        | (.err e, w1) => (.err e, w1)
        | (.panic, w1) => (.panic, w1) := by
  induction pre with
  | nil => intro storaged w; simp [collect]
  | cons r pre ih =>
    intro storaged w
    simp only [List.cons_append, collect]
    cases test r with
    | none => rfl
    | some b =>
      cases b with
      | false => exact ih storaged w
      | true =>
        simp only
        rcases hc : create fenv r w with ⟨o, w1⟩
        cases o with
        | ok val => exact ih _ _
        | err e => rfl
        | panic => rfl

/-- A creation step writes to memory only through the factory. -/
theorem create_frame (fenv : FuncEnv) (a : Nat)
    (hframe : ∀ (id : Nat) (h : Heap), (fenv id h).2 a = h a)
    (r : objectRegister) (w : World) :
    (create fenv r w).2.heap a = w.heap a := by
  unfold create
  split
  · rfl
  · split
    · rfl
    · unfold callFactory
      split
      · split
        · rfl
        · split
          · rfl
          · dsimp only
            repeat' split
            all_goals exact hframe _ _
      · rfl

/-- The loop of `CreateAll` writes to memory only through the factories. -/
theorem collect_frame (fenv : FuncEnv) (a : Nat)
    (hframe : ∀ (id : Nat) (h : Heap), (fenv id h).2 a = h a)
    (test : objectRegister → Option Bool) (iter : List objectRegister) :
    ∀ (storaged : List Value) (w : World),
      (collect fenv test iter storaged w).2.heap a = w.heap a := by
  induction iter with
  | nil => intro storaged w; rfl
  | cons r rest ih =>
    intro storaged w
    simp only [collect]
    cases test r with
    | none => rfl
    | some b =>
      cases b with
      | false => exact ih storaged w
      | true =>
        simp only
        have hc := create_frame fenv a hframe r w
        rcases hcr : create fenv r w with ⟨o, w1⟩
        rw [hcr] at hc
        cases o with
        | ok val => simp only; rw [ih]; exact hc
        | err e => exact hc
        | panic => exact hc

/-- The value of `CreateAll` on a destination of type `*[]E` with `E` an
interface or a pointer to a struct, in terms of the loop that applies. -/
theorem CreateAll_shape (fenv : FuncEnv) (iter : List objectRegister)
    (objectSlice : Value) (E : GoType) (w : World)
    (hty : TypeOf objectSlice = some (.ptr (.slice E)))
    (hE : E.Kind = Kind.Interface ∨ ∃ S, E = .ptr S ∧ S.Kind = Kind.Struct) :
    CreateAll fenv iter objectSlice w =
      match collect fenv
          (if E.Kind = Kind.Interface then ifaceTest E else structTest E)
          iter [] w with
      | (.err e, w1) => (.err e, w1)
      | (.panic, w1) => (.panic, w1)
      | (.ok storaged, w1) => storeSlice E storaged objectSlice w1 := by
  simp only [CreateAll, hty, kind_ptr, elem_ptr, kind_slice, elem_slice]
  by_cases hk : E.Kind = Kind.Interface
  · simp [hk]
  · have hp : E.Kind = Kind.Ptr ∧ E.Elem.map GoType.Kind = some Kind.Struct := by
      rcases hE with hk1 | ⟨S, rfl, hS⟩
      · exact absurd hk1 hk
      · simp [hS]
    have hpc : (decide (E.Kind = Kind.Ptr)
        && decide (Option.map GoType.Kind E.Elem = some Kind.Struct)) = true := by
      simp only [Bool.and_eq_true, decide_eq_true_eq]; exact hp
    rw [if_neg hk, if_pos hpc, if_neg hk]
    simp

/-! ## The claims on validation, creation and `CreateAll` -/

/-- C15, as the code has it: on a provider with both a singleton and a
factory, bind-time validation takes the factory path and does not read the
singleton (its outcome is the one it has whatever the singleton is), and the
creation step returns the singleton without calling the factory: the log
gains the creation event only. -/
theorem C15_singleton_wins_at_creation (fenv : FuncEnv) (r : objectRegister)
    (w : World) (s : Value)
    (hs : r.singleton.isNil = false) (hf : r.factory.isNil = false) :
    (checkOptions r).1 = (checkOptions { r with singleton := s }).1 ∧
    create fenv r w =
      (.ok r.singleton, { w with log := w.log ++ [Event.create r.name] }) := by
  exact ⟨checkOptions_factory_path r s hf, create_accepted fenv r w hs⟩

/-- C15 at the provider that `Bind("f", Singleton(a11), Constructor(f7))`
configures. -/
theorem C15_witness :
    (checkOptions ⟨"f", testFactory, none, none, a11⟩).1 =
      (checkOptions { (⟨"f", testFactory, none, none, a11⟩ : objectRegister) with
        singleton := a22 }).1 ∧
    create testFuncs ⟨"f", testFactory, none, none, a11⟩ emptyWorld =
      (.ok a11, { emptyWorld with log := emptyWorld.log ++ [Event.create "f"] }) :=
  C15_singleton_wins_at_creation testFuncs ⟨"f", testFactory, none, none, a11⟩
    emptyWorld a22 rfl rfl

/-- C15 fails as stated: on the provider configured with the singleton `a11`
and the factory number 7, whose product is `a22`, the creation step returns
`a11`, not `a22`, and the factory is not called. -/
theorem C15_counterexample :
    applyOptions [Singleton a11, Constructor testFactory]
        ⟨"f", .nil, none, none, .nil⟩ =
      some ⟨"f", testFactory, none, none, a11⟩ ∧
    (testFuncs 7 emptyWorld.heap).1 = [a22, Value.nil] ∧
    (create testFuncs ⟨"f", testFactory, none, none, a11⟩ emptyWorld).1 = .ok a11 ∧
    (create testFuncs ⟨"f", testFactory, none, none, a11⟩ emptyWorld).1 ≠ .ok a22 ∧
    Event.call 7 ∉
      (create testFuncs ⟨"f", testFactory, none, none, a11⟩ emptyWorld).2.log := by
  refine ⟨rfl, rfl, rfl, ?_, ?_⟩
  · have h : (create testFuncs ⟨"f", testFactory, none, none, a11⟩ emptyWorld).1 =
        .ok a11 := rfl
    rw [h]
    simp [a11, a22]
  · have h : (create testFuncs ⟨"f", testFactory, none, none, a11⟩ emptyWorld).2.log =
        [Event.create "f"] := rfl
    rw [h]
    simp

/-- C16: on a provider without factory, `checkOptions` returns
`ErrSingletonConstructor` exactly when no singleton is set, returns
`ErrSingletonType` exactly when a singleton is set whose type is not a
pointer to a struct, and otherwise, the singleton being of type `*T` with `T`
a struct, returns nil with `objType` set to `T` and `ptrType` to `*T`. -/
theorem C16_singleton_validation (r : objectRegister)
    (hf : r.factory.isNil = true) :
    ((checkOptions r).1 = .err ErrSingletonConstructor ↔
      r.singleton.isNil = true) ∧
    ((checkOptions r).1 = .err ErrSingletonType ↔
      (r.singleton.isNil = false ∧
        ¬ ∃ T, TypeOf r.singleton = some (.ptr T) ∧ T.Kind = Kind.Struct)) ∧
    (∀ T, TypeOf r.singleton = some (.ptr T) → T.Kind = Kind.Struct →
      checkOptions r =
        (.ok (), { r with objType := some T, ptrType := some (.ptr T) })) := by
  obtain ⟨h1, h2, h3, h4⟩ := checkOptions_singleton_path r hf
  have hne : ErrSingletonType ≠ ErrSingletonConstructor := by
    simp [ErrSingletonType, ErrSingletonConstructor]
  refine ⟨?_, ?_, h4⟩
  · by_cases hs : r.singleton.isNil = true
    · simp [h1 hs, hs]
    · have hs : r.singleton.isNil = false := by simpa using hs
      obtain ⟨t, ht⟩ := typeOf_of_not_nil _ hs
      by_cases hk : t.Kind = Kind.Ptr
      · obtain ⟨e, rfl⟩ := (kind_ptr_iff t).1 hk
        by_cases he : e.Kind = Kind.Struct
        · simp [h4 e ht he, hs]
        · simp [h3 e ht he, hs, hne]
      · simp [h2 t ht hk, hs, hne]
  · by_cases hs : r.singleton.isNil = true
    · simp [h1 hs, hs, hne.symm]
    · have hs : r.singleton.isNil = false := by simpa using hs
      obtain ⟨t, ht⟩ := typeOf_of_not_nil _ hs
      by_cases hk : t.Kind = Kind.Ptr
      · obtain ⟨e, rfl⟩ := (kind_ptr_iff t).1 hk
        by_cases he : e.Kind = Kind.Struct
        · rw [h4 e ht he]
          simp only [hs, true_and, reduceCtorEq, false_iff, not_not]
          exact ⟨e, ht, he⟩
        · rw [h3 e ht he]
          simp only [hs, true_and, true_iff, not_exists, not_and]
          intro T hT
          rw [ht] at hT
          simp only [Option.some.injEq, GoType.ptr.injEq] at hT
          subst hT
          exact he
      · rw [h2 t ht hk]
        simp only [hs, true_and, true_iff, not_exists, not_and]
        intro T hT
        rw [ht] at hT
        simp only [Option.some.injEq] at hT
        subst hT
        exact absurd rfl hk

/-- C16 at the provider that `Bind("a1", Singleton(a11))` configures. -/
theorem C16_witness :
    ((checkOptions ⟨"a1", .nil, none, none, a11⟩).1 = .err ErrSingletonConstructor ↔
      (⟨"a1", .nil, none, none, a11⟩ : objectRegister).singleton.isNil = true) ∧
    ((checkOptions ⟨"a1", .nil, none, none, a11⟩).1 = .err ErrSingletonType ↔
      ((⟨"a1", .nil, none, none, a11⟩ : objectRegister).singleton.isNil = false ∧
        ¬ ∃ T, TypeOf (⟨"a1", .nil, none, none, a11⟩ : objectRegister).singleton =
            some (.ptr T) ∧ T.Kind = Kind.Struct)) ∧
    (∀ T, TypeOf (⟨"a1", .nil, none, none, a11⟩ : objectRegister).singleton =
        some (.ptr T) → T.Kind = Kind.Struct →
      checkOptions ⟨"a1", .nil, none, none, a11⟩ =
        (.ok (), { (⟨"a1", .nil, none, none, a11⟩ : objectRegister) with
          objType := some T, ptrType := some (.ptr T) })) :=
  C16_singleton_validation ⟨"a1", .nil, none, none, a11⟩ rfl

/-- C17: for every factory value whose type is not a valid factory type,
`checkOptions` returns `ErrFactoryType` on every provider that holds it, and
a `Bind` whose options configure it leaves the container as it was; under a
name that is not bound yet, that `Bind` returns `ErrFactoryType`. -/
theorem C17_invalid_factory_rejected (f : Value) (ft : GoType)
    (hty : TypeOf f = some ft) (hbad : validFactoryType ft = false) :
    (∀ r : objectRegister, r.factory = f →
      checkOptions r = (.err ErrFactoryType, r)) ∧
    (∀ (impl : sdi4goImpl) (n : String) (options : List BindOption)
        (r0 : objectRegister),
      applyOptions options
          { name := n, factory := .nil, objType := none, ptrType := none,
            singleton := .nil } = some r0 →
      r0.factory = f →
      (Bind impl n options).2 = impl ∧
      (impl.registers.lookup n = none →
        Bind impl n options = (.err ErrFactoryType, impl))) := by
  have hc : ∀ r : objectRegister, r.factory = f →
      checkOptions r = (.err ErrFactoryType, r) := by
    intro r hr
    exact checkOptions_invalid_factory r ft (by rw [hr]; exact hty) hbad
  refine ⟨hc, ?_⟩
  intro impl n options r0 ha hr0
  have hb : impl.registers.lookup n = none →
      Bind impl n options = (.err ErrFactoryType, impl) := by
    intro hl
    simp only [Bind, hl, ha, hc r0 hr0]
  refine ⟨?_, hb⟩
  cases hl : impl.registers.lookup n with
  | none => rw [hb hl]
  | some x => simp [Bind, hl]

/-- C17 at a factory with one parameter, `func(int) (*testA, error)`. -/
theorem C17_witness :
    (∀ r : objectRegister,
      r.factory = .func (.func (.cons (.basic .int) .nil)
        (.cons (.ptr testA) (.cons errorInterface .nil))) 9 →
      checkOptions r = (.err ErrFactoryType, r)) ∧
    (∀ (impl : sdi4goImpl) (n : String) (options : List BindOption)
        (r0 : objectRegister),
      applyOptions options
          { name := n, factory := .nil, objType := none, ptrType := none,
            singleton := .nil } = some r0 →
      r0.factory = .func (.func (.cons (.basic .int) .nil)
        (.cons (.ptr testA) (.cons errorInterface .nil))) 9 →
      (Bind impl n options).2 = impl ∧
      (impl.registers.lookup n = none →
        Bind impl n options = (.err ErrFactoryType, impl))) :=
  C17_invalid_factory_rejected
    (.func (.func (.cons (.basic .int) .nil)
      (.cons (.ptr testA) (.cons errorInterface .nil))) 9)
    (.func (.cons (.basic .int) .nil)
      (.cons (.ptr testA) (.cons errorInterface .nil))) rfl rfl

/-- C18: for every destination whose type is not a pointer type, or is a
pointer to a type that is not a slice, or is a pointer to a slice whose
element type is neither an interface nor a pointer to a struct, `CreateAll`
returns `ErrSliceType` and leaves the world as it was, whatever the
registers: no creation step is invoked and no variable is written. -/
theorem C18_bad_destination (fenv : FuncEnv) (iter : List objectRegister)
    (objectSlice : Value) (w : World) (t : GoType)
    (hty : TypeOf objectSlice = some t)
    (hbad : t.Kind ≠ Kind.Ptr ∨
      (∃ u, t = .ptr u ∧ u.Kind ≠ Kind.Slice) ∨
      (∃ E, t = .ptr (.slice E) ∧
        ¬ (E.Kind = Kind.Interface ∨ ∃ S, E = .ptr S ∧ S.Kind = Kind.Struct))) :
    CreateAll fenv iter objectSlice w = (.err ErrSliceType, w) := by
  rcases hbad with hk | ⟨u, rfl, hu⟩ | ⟨E, rfl, hE⟩
  · simp [CreateAll, hty, hk]
  · simp [CreateAll, hty, hu]
  · exact CreateAll_bad_elem fenv iter objectSlice E w hty hE

/-- C18 at a `testA` struct value, on the registers of `TestInjectorGet`. -/
theorem C18_witness :
    CreateAll noFuncs (testContainer.registers.map Prod.snd) (.other testA 1)
      emptyWorld = (.err ErrSliceType, emptyWorld) :=
  C18_bad_destination noFuncs (testContainer.registers.map Prod.snd)
    (.other testA 1) emptyWorld testA rfl (Or.inl (by decide))

/-- C19: on a provider without singleton whose factory is a function of
type `func() (O, E)` that returns the results `obj` and `e`, the creation step
calls the factory once (the log gains one creation event and one call event)
and returns `obj` when `e` is nil, and fails with the error `e` itself when
`e` is not nil.  A provider with neither singleton nor factory fails with
`ErrSingletonConstructor`.  In `CreateAll` into a destination of type `*[]E1`,
when the registers visited first are collected without failure and the
creation step of the next matching register fails with `e1`, `CreateAll`
returns `e1` with the world that creation step left: nothing is stored, and a
variable that no factory writes keeps its content. -/
theorem C19_factory_creation (fenv : FuncEnv) (r : objectRegister) (w : World)
    (id : Nat) (O E : GoType) (obj e : Value) (h1 : Heap)
    (hs : r.singleton.isNil = true)
    (hfac : r.factory = .func (.func .nil (.cons O (.cons E .nil))) id)
    (hres : fenv id w.heap = ([obj, e], h1)) :
    (IsNil E e = some true →
      create fenv r w =
        (.ok obj, { heap := h1,
                    log := w.log ++ [Event.create r.name, Event.call id] })) ∧
    (IsNil E e = some false →
      ∀ et, TypeOf e = some et → et.Implements errorInterface = true →
      create fenv r w =
        (.err e, { heap := h1,
                   log := w.log ++ [Event.create r.name, Event.call id] })) ∧
    (∀ (r0 : objectRegister) (w0 : World),
      r0.singleton.isNil = true → r0.factory.isNil = true →
      create fenv r0 w0 =
        (.err ErrSingletonConstructor,
         { w0 with log := w0.log ++ [Event.create r0.name] })) ∧
    (∀ (pre post : List objectRegister) (r1 : objectRegister)
        (objectSlice : Value) (E1 : GoType) (st : List Value)
        (w0 w1 w2 : World) (e1 : Value) (a : Nat),
      TypeOf objectSlice = some (.ptr (.slice E1)) →
      (E1.Kind = Kind.Interface ∨ ∃ S, E1 = .ptr S ∧ S.Kind = Kind.Struct) →
      collect fenv
        (if E1.Kind = Kind.Interface then ifaceTest E1 else structTest E1)
        pre [] w0 = (.ok st, w1) →
      (if E1.Kind = Kind.Interface then ifaceTest E1 else structTest E1) r1 =
        some true →
      create fenv r1 w1 = (.err e1, w2) →
      CreateAll fenv (pre ++ r1 :: post) objectSlice w0 = (.err e1, w2) ∧
      ((∀ (fn : Nat) (h : Heap), (fenv fn h).2 a = h a) →
        w2.heap a = w0.heap a)) := by
  have hcall := callFactory_two_results fenv
    { w with log := w.log ++ [Event.create r.name] } id O E obj e h1 hres
  have hcreate : create fenv r w =
      callFactory fenv (.func (.func .nil (.cons O (.cons E .nil))) id)
        { w with log := w.log ++ [Event.create r.name] } := by
    have hfn : (Value.func (.func .nil (.cons O (.cons E .nil))) id).isNil = false :=
      rfl
    simp [create, hs, hfac, hfn]
  refine ⟨?_, ?_, ?_, ?_⟩
  · intro hnil
    rw [hcreate, hcall, hnil]
    simp
  · intro hnil et het himp
    rw [hcreate, hcall, hnil]
    simp [het, himp]
  · intro r0 w0 hs0 hf0
    simp [create, hs0, hf0]
  · intro pre post r1 objectSlice E1 st w0 w1 w2 e1 a hty hE hpre htest hcr
    refine ⟨?_, ?_⟩
    · rw [CreateAll_shape fenv _ objectSlice E1 w0 hty hE, collect_append, hpre]
      simp only [collect, htest, hcr]
    · intro hframe
      have h2 := create_frame fenv a hframe r1 w1
      have h3 := collect_frame fenv a hframe
        (if E1.Kind = Kind.Interface then ifaceTest E1 else structTest E1) pre [] w0
      rw [hcr] at h2
      rw [hpre] at h3
      exact h2.trans h3

/-- C19 at a provider for `testA` whose factory, function number 8, returns a
nil pointer and the error `ErrNotFound`. -/
theorem C19_witness :
    (IsNil errorInterface ErrNotFound = some true →
      create testFuncs
          ⟨"f", .func (.func .nil (.cons (.ptr testA) (.cons errorInterface .nil))) 8,
            some testA, some (.ptr testA), .nil⟩ emptyWorld =
        (.ok (.ptr testA none),
         { heap := emptyWorld.heap,
           log := emptyWorld.log ++ [Event.create "f", Event.call 8] })) ∧
    (IsNil errorInterface ErrNotFound = some false →
      ∀ et, TypeOf ErrNotFound = some et → et.Implements errorInterface = true →
      create testFuncs
          ⟨"f", .func (.func .nil (.cons (.ptr testA) (.cons errorInterface .nil))) 8,
            some testA, some (.ptr testA), .nil⟩ emptyWorld =
        (.err ErrNotFound,
         { heap := emptyWorld.heap,
           log := emptyWorld.log ++ [Event.create "f", Event.call 8] })) ∧
    (∀ (r0 : objectRegister) (w0 : World),
      r0.singleton.isNil = true → r0.factory.isNil = true →
      create testFuncs r0 w0 =
        (.err ErrSingletonConstructor,
         { w0 with log := w0.log ++ [Event.create r0.name] })) ∧
    (∀ (pre post : List objectRegister) (r1 : objectRegister)
        (objectSlice : Value) (E1 : GoType) (st : List Value)
        (w0 w1 w2 : World) (e1 : Value) (a : Nat),
      TypeOf objectSlice = some (.ptr (.slice E1)) →
      (E1.Kind = Kind.Interface ∨ ∃ S, E1 = .ptr S ∧ S.Kind = Kind.Struct) →
      collect testFuncs
        (if E1.Kind = Kind.Interface then ifaceTest E1 else structTest E1)
        pre [] w0 = (.ok st, w1) →
      (if E1.Kind = Kind.Interface then ifaceTest E1 else structTest E1) r1 =
        some true →
      create testFuncs r1 w1 = (.err e1, w2) →
      CreateAll testFuncs (pre ++ r1 :: post) objectSlice w0 = (.err e1, w2) ∧
      ((∀ (fn : Nat) (h : Heap), (testFuncs fn h).2 a = h a) →
        w2.heap a = w0.heap a)) :=
  C19_factory_creation testFuncs
    ⟨"f", .func (.func .nil (.cons (.ptr testA) (.cons errorInterface .nil))) 8,
      some testA, some (.ptr testA), .nil⟩
    emptyWorld 8 (.ptr testA) errorInterface (.ptr testA none) ErrNotFound
    emptyWorld.heap rfl rfl rfl

/-! ## Facts about `Inject` -/

/-- In a reachable container, `Create` under a registered name, into a
variable of a type that the provider matches, stores the singleton of the
provider. -/
theorem Create_matching (fenv : FuncEnv) (impl : sdi4goImpl) (tag : String)
    (X : GoType) (d : Nat) (w : World) (r : objectRegister)
    (hr : Reachable impl) (hl : impl.registers.lookup tag = some r)
    (hm : providerMatches X r = true) :
    Create fenv impl tag (.ptr X (some d)) w =
      (.ok (), { heap := Function.update w.heap d r.singleton,
                 log := w.log ++ [Event.create r.name] }) := by
  obtain ⟨_, hs, T, hT, hobj, hptr, hty⟩ :=
    hr.accepted (tag, r) (mem_of_lookup _ _ _ hl)
  dsimp only at hs hobj hptr hty
  rw [Create_registered fenv impl tag (.ptr X (some d)) w X T r rfl hl hs hobj hptr]
  cases X <;> simp [providerMatches, hobj, hptr] at hm
  case iface n ms =>
    rw [if_pos (kind_iface n ms), if_pos hm]
    simp [setElem, hty, GoType.AssignableTo, hm]
  case ptr S =>
    subst hm
    have h1 : ¬ (GoType.ptr T).Kind = Kind.Interface := by simp
    have h3 : (GoType.ptr T).Kind = Kind.Ptr ∧
        (GoType.ptr T).Elem.map GoType.Kind = some Kind.Struct := by
      simp [hT]
    have h4 : some T = (GoType.ptr T).Elem := rfl
    rw [if_neg h1, if_pos h3, if_pos h4]
    simp [setElem, hty, GoType.AssignableTo]

/-- One round of the loop of `injector.Inject` on a resolvable field. -/
theorem injectLoop_cons_resolvable (fenv : FuncEnv) (impl : sdi4goImpl)
    (f : injectField) (rest : List injectField) (w : World)
    (hr : Reachable impl) (hf : Resolvable impl f) :
    injectLoop fenv impl (f :: rest) w =
      injectLoop fenv impl rest (resolveField impl w f) := by
  obtain ⟨hro, r, hl, hm⟩ := hf
  obtain ⟨_, hs, T, hT, hobj, hptr, hty⟩ :=
    hr.accepted (f.tag, r) (mem_of_lookup _ _ _ hl)
  dsimp only at hs hobj hptr hty
  have hc := Create_matching fenv impl f.tag f.fieldType f.addr w r hr hl hm
  have hw : resolveField impl w f =
      { heap := Function.update w.heap f.addr r.singleton,
        log := w.log ++ [Event.create r.name] } := by
    simp [resolveField, resolvedObject, hl]
  rw [hw]
  cases hX : f.fieldType <;> rw [hX] at hm hc <;>
    simp [providerMatches, hobj, hptr] at hm
  case iface n ms =>
    simp [injectLoop, hl, hX, hptr, hm, hro, hc]
  case ptr S =>
    subst hm
    simp [injectLoop, hl, hX, hobj, hro, hc]

/-- The loop of `injector.Inject` over resolvable fields resolves them one
after the other and returns nil. -/
theorem injectLoop_resolvable (fenv : FuncEnv) (impl : sdi4goImpl)
    (hr : Reachable impl) (fs : List injectField) :
    ∀ (rest : List injectField) (w : World),
      (∀ f ∈ fs, Resolvable impl f) →
      injectLoop fenv impl (fs ++ rest) w =
        injectLoop fenv impl rest (fs.foldl (resolveField impl) w) := by
  induction fs with
  | nil => intro rest w _; rfl
  | cons f fs ih =>
    intro rest w h
    rw [List.cons_append,
      injectLoop_cons_resolvable fenv impl f _ w hr (h f (List.mem_cons_self _ _))]
    exact ih rest _ (fun g hg => h g (List.mem_cons_of_mem _ hg))

/-- The memory after a sequence of resolutions, outside the fields. -/
theorem foldl_resolveField_frame (impl : sdi4goImpl) (fs : List injectField) :
    ∀ (w : World) (a : Nat), a ∉ fs.map (fun f => f.addr) →
      (fs.foldl (resolveField impl) w).heap a = w.heap a := by
  induction fs with
  | nil => intro w a _; rfl
  | cons f fs ih =>
    intro w a ha
    simp only [List.map_cons, List.mem_cons, not_or] at ha
    rw [List.foldl_cons, ih _ a ha.2]
    simp [resolveField, Function.update, ha.1]

/-- The memory after a sequence of resolutions, at the fields. -/
theorem foldl_resolveField_at (impl : sdi4goImpl) (fs : List injectField) :
    ∀ (w : World), (fs.map (fun f => f.addr)).Nodup →
      ∀ f ∈ fs, (fs.foldl (resolveField impl) w).heap f.addr =
        resolvedObject impl f.tag := by
  induction fs with
  | nil => intro w _ f hf; simp at hf
  | cons g fs ih =>
    intro w hnd f hf
    simp only [List.map_cons, List.nodup_cons] at hnd
    rw [List.foldl_cons]
    rcases List.mem_cons.1 hf with rfl | hf
    · rw [foldl_resolveField_frame impl fs _ _ hnd.1]
      simp [resolveField]
    · exact ih _ hnd.2 f hf

/-- On a target that passes the field scan and whose tagged fields are all
resolvable in a reachable container, `Inject` returns nil and leaves the
world in which every field was resolved in turn; the object resolved for a
field is the one `Create` stores for its tag into any variable of the type of
the field. -/
theorem Inject_resolvable (upperTable : Char → Bool) (fenv : FuncEnv)
    (impl : sdi4goImpl) (object : Value) (w : World) (inj : injector)
    (hr : Reachable impl) (hscan : newInjector upperTable object = .ok inj)
    (hall : ∀ f ∈ inj.fields, Resolvable impl f) :
    Inject upperTable fenv impl object w =
      (.ok (), inj.fields.foldl (resolveField impl) w) ∧
    (∀ f ∈ inj.fields, ∀ (d : Nat) (w0 : World),
      Create fenv impl f.tag (.ptr f.fieldType (some d)) w0 =
        (.ok (), { heap := Function.update w0.heap d (resolvedObject impl f.tag),
                   log := (resolveField impl w0 f).log })) := by
  constructor
  · have h := injectLoop_resolvable fenv impl hr inj.fields [] w hall
    simp only [List.append_nil] at h
    simp only [Inject, hscan, injector.Inject, h, injectLoop]
  · intro f hf d w0
    obtain ⟨_, r, hl, hm⟩ := hall f hf
    rw [Create_matching fenv impl f.tag f.fieldType d w0 r hr hl hm]
    simp [resolveField, resolvedObject, hl]

/-- The fields the scan appends have addresses in increasing order, from the
address of the field it starts at. -/
theorem scanFields_addrs (upperTable : Char → Bool) (base : Option Nat) :
    ∀ (fl : FieldList) (i : Nat) (acc res : List injectField),
      scanFields upperTable base fl i acc = .ok res →
      ∃ new : List injectField, res = acc ++ new ∧
        (new.map (fun g => g.addr)).Pairwise (· < ·) ∧
        ∀ g ∈ new, ∀ a, base = some a → fieldAddr a i ≤ g.addr
  | .nil, i, acc, res, h => by
    simp only [scanFields, Outcome.ok.injEq] at h
    exact ⟨[], by simp [h], by simp, by simp⟩
  | .cons name tag t rest, i, acc, res, h => by
    cases tag with
    | none =>
      simp only [scanFields] at h
      obtain ⟨new, hres, hp, hge⟩ :=
        scanFields_addrs upperTable base rest (i + 1) acc res h
      refine ⟨new, hres, hp, ?_⟩
      intro g hg a ha
      have := hge g hg a ha
      simp only [fieldAddr] at this ⊢
      omega
    | some tagStr =>
      simp only [scanFields] at h
      split at h
      · simp at h
      · split at h
        · simp at h
        · split at h
          · simp at h
          · cases base with
            | none => simp at h
            | some a =>
              simp only at h
              obtain ⟨new, hres, hp, hge⟩ :=
                scanFields_addrs upperTable (some a) rest (i + 1) _ res h
              refine ⟨{ tag := tagStr, fieldType := t, addr := fieldAddr a i,
                        readOnly := !isExported upperTable name } :: new, ?_, ?_, ?_⟩
              · rw [hres]; simp
              · simp only [List.map_cons, List.pairwise_cons]
                refine ⟨?_, hp⟩
                intro x hx
                obtain ⟨g, hg, rfl⟩ := List.mem_map.1 hx
                have := hge g hg a rfl
                simp only [fieldAddr] at this ⊢
                omega
              · intro g hg b hb
                simp only [Option.some.injEq] at hb
                subst hb
                rcases List.mem_cons.1 hg with rfl | hg
                · exact Nat.le_refl _
                · have := hge g hg a rfl
                  simp only [fieldAddr] at this ⊢
                  omega

/-- The fields of an injector built by `newInjector` are distinct
variables. -/
theorem newInjector_addrs_nodup (upperTable : Char → Bool) (object : Value)
    (inj : injector) (h : newInjector upperTable object = .ok inj) :
    (inj.fields.map (fun g => g.addr)).Nodup := by
  unfold newInjector at h
  split at h
  · simp at h
  · split at h
    · simp at h
    · split at h
      · simp at h
      · split at h
        · simp at h
        · dsimp only at h
          split at h
          · rename_i fields hscan
            simp only [Outcome.ok.injEq] at h
            subst h
            obtain ⟨new, hres, hp, _⟩ := scanFields_addrs upperTable _ _ 0 [] fields hscan
            simp only [List.nil_append] at hres
            subst hres
            exact hp.imp (fun hlt => Nat.ne_of_lt hlt)
          · simp at h
          · simp at h

/-! ## The claims on `Inject` -/

/-- C11: on the container of `TestInjectorGet`, `Inject` into the `testB` of
the test returns nil and stores `a11` and `a22` in its two fields; but on a
struct whose tagged field `Éa` is exported, of type `*testA` and tagged with
the registered name `a1`, for which a direct `Create` returns nil, `Inject`
returns `ErrInjectField` and stores nothing. -/
theorem C11_exported_field_rejected :
    (Inject latinUpper noFuncs testContainer testBTarget emptyWorld).1 = .ok () ∧
    (Inject latinUpper noFuncs testContainer testBTarget emptyWorld).2.heap 201 =
      a11 ∧
    (Inject latinUpper noFuncs testContainer testBTarget emptyWorld).2.heap 202 =
      a22 ∧
    isExported latinUpper "Éa" = true ∧
    firstByte "Éa" = some 0xC3 ∧
    (Create noFuncs testContainer "a1" (.ptr (.ptr testA) (some 301))
      emptyWorld).1 = .ok () ∧
    Inject latinUpper noFuncs testContainer (.ptr withAccent (some 300))
      emptyWorld = (.err ErrInjectField, emptyWorld) :=
  ⟨rfl, rfl, rfl, rfl, rfl, rfl, rfl⟩

/-- C12: tagged fields whose type is neither an interface nor a pointer to a
struct pass the field scan unless they are pointers.  On the container of
`TestInjectorGet`, with the tag `a1`: an `int` field and a `testA` struct
field are accepted by `newInjector` and `Inject` panics (at `Type().Elem()`);
a `[]testA` field is accepted and `Inject` returns `ErrObjectPtr`; on the
empty container the `int` field makes `Inject` return the wrapped
`ErrNotFound`.  Only the `*int` field is answered with `ErrInjectField`. -/
theorem C12_tagged_field_types :
    newInjector latinUpper (.ptr withInt (some 300)) =
      .ok ⟨[⟨"a1", .basic .int, 301, false⟩]⟩ ∧
    Inject latinUpper noFuncs testContainer (.ptr withInt (some 300)) emptyWorld =
      (.panic, emptyWorld) ∧
    Inject latinUpper noFuncs testContainer (.ptr withStruct (some 300))
      emptyWorld = (.panic, emptyWorld) ∧
    Inject latinUpper noFuncs testContainer (.ptr withSlice (some 300))
      emptyWorld = (.err ErrObjectPtr, emptyWorld) ∧
    Inject latinUpper noFuncs New (.ptr withInt (some 300)) emptyWorld =
      (.err (.wrapped .ErrNotFound "can't find service %s"), emptyWorld) ∧
    Inject latinUpper noFuncs testContainer (.ptr withIntPtr (some 300))
      emptyWorld = (.err ErrInjectField, emptyWorld) :=
  ⟨rfl, rfl, rfl, rfl, rfl, rfl⟩

/-- C13: the field scan compares the first byte of the name with its title
case.  A tagged field `_a`, which is not exported, passes the scan (its
`reflect.Value` is read-only) and `Inject` panics on the container of
`TestInjectorGet` instead of returning `ErrInjectField`; a tagged field `Éa`,
which is exported, is rejected with `ErrInjectField`, its first byte `0xC3`
having the title case U+FFFD; a tagged field `a` is rejected. -/
theorem C13_exported_check_by_first_byte :
    isExported latinUpper "_a" = false ∧
    newInjector latinUpper (.ptr withUnderscore (some 300)) =
      .ok ⟨[⟨"a1", .ptr testA, 301, true⟩]⟩ ∧
    Inject latinUpper noFuncs testContainer (.ptr withUnderscore (some 300))
      emptyWorld = (.panic, emptyWorld) ∧
    isExported latinUpper "Éa" = true ∧
    ToTitle 0xC3 = [0xEF, 0xBF, 0xBD] ∧
    newInjector latinUpper (.ptr withAccent (some 300)) = .err ErrInjectField ∧
    newInjector latinUpper (.ptr withLower (some 300)) = .err ErrInjectField :=
  ⟨rfl, rfl, rfl, rfl, rfl, rfl, rfl⟩

/-- C14: `Inject` resolves the tagged fields in declaration order and does
not roll back.  On a target whose scan yields the tagged fields `pre`, `f`,
`post` in this order, in a reachable container that resolves every field of
`pre`: when the tag of `f` is not registered, `Inject` returns an error that
wraps `ErrNotFound`; when it is registered to a provider that does not match
the interface or pointer type of `f`, an error that wraps `ErrBindType`; when
the check of `f` passes and `Create` returns an error for `f`, that error.
In the first two cases the world `Inject` leaves is the one in which the
fields of `pre` were resolved in turn, and in the third the one `Create` left
from there: the fields of `pre` hold their objects, and `f`, the fields of
`post` and every other variable that is not a field of `pre` are as before. -/
theorem C14_inject_no_rollback (upperTable : Char → Bool) (fenv : FuncEnv)
    (impl : sdi4goImpl) (object : Value) (w : World)
    (pre post : List injectField) (f : injectField)
    (hr : Reachable impl)
    (hscan : newInjector upperTable object = .ok ⟨pre ++ f :: post⟩)
    (hpre : ∀ g ∈ pre, Resolvable impl g) :
    (impl.registers.lookup f.tag = none →
      ∃ e, Inject upperTable fenv impl object w =
          (.err e, pre.foldl (resolveField impl) w) ∧
        e.cause = some Sentinel.ErrNotFound) ∧
    (∀ r, impl.registers.lookup f.tag = some r →
      (f.fieldType.Kind = Kind.Interface ∨ ∃ S, f.fieldType = .ptr S) →
      providerMatches f.fieldType r = false →
      ∃ e, Inject upperTable fenv impl object w =
          (.err e, pre.foldl (resolveField impl) w) ∧
        e.cause = some Sentinel.ErrBindType) ∧
    (∀ (r : objectRegister) (e : Value) (w2 : World),
      impl.registers.lookup f.tag = some r →
      ((f.fieldType.Kind = Kind.Interface ∧
          ∃ pt, r.ptrType = some pt ∧ pt.Implements f.fieldType = true) ∨
        (f.fieldType.Kind ≠ Kind.Interface ∧
          ∃ el, f.fieldType.Elem = some el ∧ r.objType = some el)) →
      f.readOnly = false →
      Create fenv impl f.tag (.ptr f.fieldType (some f.addr))
        (pre.foldl (resolveField impl) w) = (.err e, w2) →
      Inject upperTable fenv impl object w = (.err e, w2)) ∧
    (∀ g ∈ pre, (pre.foldl (resolveField impl) w).heap g.addr =
        resolvedObject impl g.tag) ∧
    (∀ g ∈ f :: post, (pre.foldl (resolveField impl) w).heap g.addr =
        w.heap g.addr) ∧
    (∀ a : Nat, a ∉ pre.map (fun g => g.addr) →
      (pre.foldl (resolveField impl) w).heap a = w.heap a) := by
  have hnd := newInjector_addrs_nodup upperTable object _ hscan
  simp only [List.map_append, List.nodup_append] at hnd
  obtain ⟨hndpre, _, hdisj⟩ := hnd
  have hloop : Inject upperTable fenv impl object w =
      injectLoop fenv impl (f :: post) (pre.foldl (resolveField impl) w) := by
    simp only [Inject, hscan, injector.Inject]
    exact injectLoop_resolvable fenv impl hr pre (f :: post) w hpre
  refine ⟨?_, ?_, ?_, ?_, ?_, ?_⟩
  · intro hl
    refine ⟨.wrapped .ErrNotFound "can't find service %s", ?_, rfl⟩
    rw [hloop]
    simp only [injectLoop, hl]
  · intro r hl hshape hm
    obtain ⟨_, hs, T, hT, hobj, hptr, hty⟩ :=
      hr.accepted (f.tag, r) (mem_of_lookup _ _ _ hl)
    dsimp only at hs hobj hptr hty
    rw [hloop]
    rcases hshape with hk | ⟨S, hS⟩
    · obtain ⟨n, ms, hX⟩ := (kind_iface_iff _).1 hk
      rw [hX] at hm
      simp only [providerMatches, hptr] at hm
      refine ⟨.wrapped .ErrBindType "service %s can't cast %v to %v", ?_, rfl⟩
      simp [injectLoop, hl, hX, hptr, hm]
    · rw [hS] at hm
      simp only [providerMatches, hobj, decide_eq_false_iff_not,
        Option.some.injEq] at hm
      refine ⟨.wrapped .ErrBindType "service %s type error", ?_, rfl⟩
      have hne : ¬ S = T := fun h => hm h.symm
      simp [injectLoop, hl, hS, hobj, hne]
  · intro r e w2 hl hcheck hro hc
    rw [hloop]
    rcases hcheck with ⟨hk, pt, hpt, himp⟩ | ⟨hk, el, hel, hobj⟩
    · simp [injectLoop, hl, hk, hpt, himp, hro, hc]
    · simp [injectLoop, hl, hk, hel, hobj, hro, hc]
  · intro g hg
    exact foldl_resolveField_at impl pre w hndpre g hg
  · intro g hg
    refine foldl_resolveField_frame impl pre w g.addr ?_
    intro hmem
    exact hdisj hmem (List.mem_map.2 ⟨g, hg, rfl⟩)
  · intro a ha
    exact foldl_resolveField_frame impl pre w a ha

/-- C14 at a struct with the fields `A`, `B`, `C` tagged `a1`, `missing`,
`a2`, on the container of `TestInjectorGet`: `Inject` returns an error that
wraps `ErrNotFound`, and the world it leaves is the one in which `A` alone
was resolved. -/
theorem C14_witness :
    ∃ e, Inject latinUpper noFuncs testContainer (.ptr testD (some 300))
          emptyWorld =
        (.err e,
          [(⟨"a1", .ptr testA, 301, false⟩ : injectField)].foldl
            (resolveField testContainer) emptyWorld) ∧
      e.cause = some Sentinel.ErrNotFound :=
  (C14_inject_no_rollback latinUpper noFuncs testContainer
    (.ptr testD (some 300)) emptyWorld
    [⟨"a1", .ptr testA, 301, false⟩]
    [⟨"a2", .ptr testA, 303, false⟩]
    ⟨"missing", .ptr testA, 302, false⟩
    (Reachable.bind _ "a2" [Singleton a22]
      (Reachable.bind _ "a1" [Singleton a11] Reachable.new))
    rfl
    (by
      intro g hg
      simp only [List.mem_singleton] at hg
      subst hg
      exact ⟨rfl, ⟨"a1", .nil, some testA, some (.ptr testA), a11⟩, rfl, rfl⟩)).1
    rfl

/-! ## The invariant of the container -/

/-- The options a caller can pass do not change the name of the register. -/
theorem applyOptions_name (options : List BindOption) :
    ∀ (r r0 : objectRegister), (∀ o ∈ options, CallerOption o) →
      applyOptions options r = some r0 → r0.name = r.name := by
  induction options with
  | nil =>
    intro r r0 _ h
    simp only [applyOptions, Option.some.injEq] at h
    rw [h]
  | cons o rest ih =>
    intro r r0 hall h
    have hrest : ∀ o ∈ rest, CallerOption o :=
      fun x hx => hall x (List.mem_cons_of_mem _ hx)
    rcases hall o (List.mem_cons_self _ _) with rfl | ⟨v, rfl | rfl⟩
    · simp [applyOptions] at h
    · simp only [applyOptions, Singleton] at h
      exact ih { r with singleton := v } r0 hrest h
    · simp only [applyOptions, Constructor] at h
      exact ih { r with factory := v } r0 hrest h

/-- A call of `Bind` with options a caller can pass keeps the entries
well-formed. -/
theorem Bind_wellFormed (impl : sdi4goImpl) (name : String)
    (options : List BindOption) (hopt : ∀ o ∈ options, CallerOption o)
    (h : ∀ e ∈ impl.registers, EntryWellFormed e.1 e.2) :
    ∀ e ∈ (Bind impl name options).2.registers, EntryWellFormed e.1 e.2 := by
  rcases Bind_cases impl name options with
    ⟨_, hb⟩ | ⟨_, hb, _⟩ | ⟨_, r0, r1, u, ha, hc, hb⟩
  · rw [hb]; exact h
  · rw [hb]; exact h
  · rw [hb]
    intro e he
    simp only [List.mem_append, List.mem_singleton] at he
    rcases he with he | rfl
    · exact h e he
    · obtain ⟨hf, hs, T, hT, _, rfl⟩ := checkOptions_ok r0 r1 u hc
      have hn := applyOptions_name options _ r0 hopt ha
      exact ⟨hn, Or.inl ⟨hs, hf⟩, T, rfl, hT, rfl⟩

/-- C20: in every state reachable from `New()` by calls of `Bind` (with the
options a caller can pass), `Create`, `CreateAll` and `Inject`, every entry
of the container is well-formed: the register stored under the key `k` has
the name `k`, has exactly one of singleton and factory set, has an `objType`
of struct kind and has as `ptrType` the pointer type to its `objType`. -/
theorem C20_registry_well_formed (upperTable : Char → Bool) (fenv : FuncEnv)
    (s : sdi4goImpl × World) (hrun : Run upperTable fenv s) :
    ∀ e ∈ s.1.registers, EntryWellFormed e.1 e.2 := by
  induction hrun with
  | start w => simp [New]
  | step s t _ hstep ih =>
    cases hstep with
    | bind impl w name options hopt =>
      exact Bind_wellFormed impl name options hopt ih
    | create impl w name objectPtr => exact ih
    | createAll impl w iter objectSlice _ => exact ih
    | inject impl w object => exact ih

/-- C20 at the state of `TestInjectorGet` after its two `Bind` calls, a
`Create` and an `Inject`: the two entries are well-formed. -/
theorem C20_witness :
    EntryWellFormed "a1" ⟨"a1", .nil, some testA, some (.ptr testA), a11⟩ ∧
    EntryWellFormed "a2" ⟨"a2", .nil, some testA, some (.ptr testA), a22⟩ :=
  have hrun : Run latinUpper noFuncs
      (testContainer,
        (Inject latinUpper noFuncs testContainer testBTarget
          (Create noFuncs testContainer "a1" (.ptr Hello (some 100))
            emptyWorld).2).2) :=
    Run.step _ _
      (Run.step _ _
        (Run.step _ _
          (Run.step _ _ (Run.start emptyWorld)
            (Step.bind New emptyWorld "a1" [Singleton a11]
              (by
                intro o ho
                simp only [List.mem_singleton] at ho
                subst ho
                exact Or.inr ⟨a11, Or.inl rfl⟩)))
          (Step.bind _ emptyWorld "a2" [Singleton a22]
            (by
              intro o ho
              simp only [List.mem_singleton] at ho
              subst ho
              exact Or.inr ⟨a22, Or.inl rfl⟩)))
        (Step.create testContainer emptyWorld "a1" (.ptr Hello (some 100))))
      (Step.inject testContainer _ testBTarget)
  ⟨C20_registry_well_formed latinUpper noFuncs _ hrun
      ("a1", ⟨"a1", .nil, some testA, some (.ptr testA), a11⟩) (List.Mem.head _),
    C20_registry_well_formed latinUpper noFuncs _ hrun
      ("a2", ⟨"a2", .nil, some testA, some (.ptr testA), a22⟩)
      (List.Mem.tail _ (List.Mem.head _))⟩

end Sdi4go
